import Mathlib

/-!
# Verification of the dreavm Dreamcast emulator core

Shallow embedding of the parts of the dreavm source that the specification's
claims are about, together with theorems settling each claim.

Machine words are modelled as `Nat` with explicit 32-bit masking where the C
code relies on fixed-width wrap-around.  Fallible C paths become `Option`.
Each embedded definition keeps the name of the C function it translates.
-/

namespace Dreavm

/-- Truncate to 32 bits (`uint32_t` conversion). -/
def mask32 (v : Nat) : Nat := v &&& 0xffffffff

/-- `old & ~value` on `uint32_t` operands. -/
def andNot32 (old v : Nat) : Nat := old &&& (0xffffffff ^^^ (v &&& 0xffffffff))

/-! ## Holly interrupt controller (src/hw/holly/holly.cc) -/

namespace Holly

/-- The three holly interrupt registers are distinguished by the type bits of
    a `HollyInterrupt` (`HOLLY_INTC_NRM/EXT/ERR`). -/
inductive IntrType
  | nrm
  | ext
  | err
deriving DecidableEq, Repr

/-- The interrupt-routing state of `Holly`: the three pending registers, the
    nine level masks, and the three SH-4 IRL lines driven by
    `ForwardRequestInterrupts` (`sh4_->RequestInterrupt(SH4_INTC_IRL_n)` is
    modelled as the corresponding line being `true`). -/
structure State where
  SB_ISTNRM : Nat
  SB_ISTEXT : Nat
  SB_ISTERR : Nat
  SB_IML2NRM : Nat
  SB_IML2EXT : Nat
  SB_IML2ERR : Nat
  SB_IML4NRM : Nat
  SB_IML4EXT : Nat
  SB_IML4ERR : Nat
  SB_IML6NRM : Nat
  SB_IML6EXT : Nat
  SB_IML6ERR : Nat
  irl9 : Bool
  irl11 : Bool
  irl13 : Bool
deriving Repr, DecidableEq

/-- `Holly::ForwardRequestInterrupts`: re-derives the three SH-4 IRL lines
    from the pending registers OR-masked against the level masks. -/
def forwardRequestInterrupts (s : State) : State :=
  { s with
    irl9 := (s.SB_ISTNRM &&& s.SB_IML6NRM != 0) ||
            (s.SB_ISTERR &&& s.SB_IML6ERR != 0) ||
            (s.SB_ISTEXT &&& s.SB_IML6EXT != 0)
    irl11 := (s.SB_ISTNRM &&& s.SB_IML4NRM != 0) ||
             (s.SB_ISTERR &&& s.SB_IML4ERR != 0) ||
             (s.SB_ISTEXT &&& s.SB_IML4EXT != 0)
    irl13 := (s.SB_ISTNRM &&& s.SB_IML2NRM != 0) ||
             (s.SB_ISTERR &&& s.SB_IML2ERR != 0) ||
             (s.SB_ISTEXT &&& s.SB_IML2EXT != 0) }

/-- `Holly::RequestInterrupt` with the interrupt already split into its type
    and irq bits (`intr & HOLLY_INTC_MASK` / `intr & ~HOLLY_INTC_MASK`): sets
    the irq bits in the pending register of that type, then forwards.  (The
    maple `VBlank` hook for `PCVOINT` touches no interrupt state.) -/
def requestInterrupt (s : State) (ty : IntrType) (irq : Nat) : State :=
  forwardRequestInterrupts <|
    match ty with
    | .nrm => { s with SB_ISTNRM := s.SB_ISTNRM ||| irq }
    | .ext => { s with SB_ISTEXT := s.SB_ISTEXT ||| irq }
    | .err => { s with SB_ISTERR := s.SB_ISTERR ||| irq }

/-- `Holly::UnrequestInterrupt`: clears the irq bits, then forwards. -/
def unrequestInterrupt (s : State) (ty : IntrType) (irq : Nat) : State :=
  forwardRequestInterrupts <|
    match ty with
    | .nrm => { s with SB_ISTNRM := andNot32 s.SB_ISTNRM irq }
    | .ext => { s with SB_ISTEXT := andNot32 s.SB_ISTEXT irq }
    | .err => { s with SB_ISTERR := andNot32 s.SB_ISTERR irq }

/-- The holly registers whose writes the interrupt claims are about. -/
inductive Reg
  | istnrm | istext | isterr
  | iml2nrm | iml2ext | iml2err
  | iml4nrm | iml4ext | iml4err
  | iml6nrm | iml6ext | iml6err
deriving DecidableEq, Repr

/-- `Holly::WriteRegister` restricted to the IST / IML registers: an IST
    register is set to `old & ~value` ("writing a 1 clears the interrupt"),
    an IML register is set to the written value; either way
    `ForwardRequestInterrupts` runs afterwards. -/
def writeRegister (s : State) (r : Reg) (v : Nat) : State :=
  forwardRequestInterrupts <|
    match r with
    | .istnrm => { s with SB_ISTNRM := andNot32 s.SB_ISTNRM v }
    | .istext => { s with SB_ISTEXT := andNot32 s.SB_ISTEXT v }
    | .isterr => { s with SB_ISTERR := andNot32 s.SB_ISTERR v }
    | .iml2nrm => { s with SB_IML2NRM := mask32 v }
    | .iml2ext => { s with SB_IML2EXT := mask32 v }
    | .iml2err => { s with SB_IML2ERR := mask32 v }
    | .iml4nrm => { s with SB_IML4NRM := mask32 v }
    | .iml4ext => { s with SB_IML4EXT := mask32 v }
    | .iml4err => { s with SB_IML4ERR := mask32 v }
    | .iml6nrm => { s with SB_IML6NRM := mask32 v }
    | .iml6ext => { s with SB_IML6EXT := mask32 v }
    | .iml6err => { s with SB_IML6ERR := mask32 v }

/-- `Holly::ReadRegister` at `SB_ISTNRM_OFFSET`: the low 30 bits of the raw
    register, with bit 30 reflecting `SB_ISTEXT` and bit 31 reflecting
    `SB_ISTERR`. -/
def readISTNRM (s : State) : Nat :=
  let v := s.SB_ISTNRM &&& 0x3fffffff
  let v := if s.SB_ISTEXT != 0 then v ||| 0x40000000 else v
  let v := if s.SB_ISTERR != 0 then v ||| 0x80000000 else v
  v

/-- The invariant the claims describe: each IRL line is requested iff the
    corresponding OR of maskings is nonzero. -/
def linesConsistent (s : State) : Prop :=
  (s.irl9 = ((s.SB_ISTNRM &&& s.SB_IML6NRM != 0) ||
             (s.SB_ISTEXT &&& s.SB_IML6EXT != 0) ||
             (s.SB_ISTERR &&& s.SB_IML6ERR != 0))) ∧
  (s.irl11 = ((s.SB_ISTNRM &&& s.SB_IML4NRM != 0) ||
              (s.SB_ISTEXT &&& s.SB_IML4EXT != 0) ||
              (s.SB_ISTERR &&& s.SB_IML4ERR != 0))) ∧
  (s.irl13 = ((s.SB_ISTNRM &&& s.SB_IML2NRM != 0) ||
              (s.SB_ISTEXT &&& s.SB_IML2EXT != 0) ||
              (s.SB_ISTERR &&& s.SB_IML2ERR != 0)))

theorem forward_linesConsistent (s : State) :
    linesConsistent (forwardRequestInterrupts s) := by
  refine ⟨?_, ?_, ?_⟩ <;> simp [forwardRequestInterrupts, Bool.or_comm,
    Bool.or_assoc, Bool.or_left_comm]

end Holly

end Dreavm

/-- C8: after every device-level raise/unraise and after every IST/IML
    register write, IRL line 9 is requested iff
    `(ISTNRM & IML6NRM) | (ISTEXT & IML6EXT) | (ISTERR & IML6ERR)` is nonzero
    (and unrequested otherwise), likewise line 11 with the IML4 masks and
    line 13 with the IML2 masks; and writing `v` to an IST register leaves it
    with `old & ~v`. -/
theorem c8_holly_irl_routing (s : Dreavm.Holly.State) (ty : Dreavm.Holly.IntrType)
    (irq : Nat) (r : Dreavm.Holly.Reg) (v : Nat) :
    Dreavm.Holly.linesConsistent (Dreavm.Holly.requestInterrupt s ty irq) ∧
    Dreavm.Holly.linesConsistent (Dreavm.Holly.unrequestInterrupt s ty irq) ∧
    Dreavm.Holly.linesConsistent (Dreavm.Holly.writeRegister s r v) ∧
    (Dreavm.Holly.writeRegister s .istnrm v).SB_ISTNRM =
      Dreavm.andNot32 s.SB_ISTNRM v ∧
    (Dreavm.Holly.writeRegister s .istext v).SB_ISTEXT =
      Dreavm.andNot32 s.SB_ISTEXT v ∧
    (Dreavm.Holly.writeRegister s .isterr v).SB_ISTERR =
      Dreavm.andNot32 s.SB_ISTERR v := by
  refine ⟨?_, ?_, ?_, ?_, ?_, ?_⟩
  · exact Dreavm.Holly.forward_linesConsistent _
  · exact Dreavm.Holly.forward_linesConsistent _
  · exact Dreavm.Holly.forward_linesConsistent _
  · simp [Dreavm.Holly.writeRegister, Dreavm.Holly.forwardRequestInterrupts]
  · simp [Dreavm.Holly.writeRegister, Dreavm.Holly.forwardRequestInterrupts]
  · simp [Dreavm.Holly.writeRegister, Dreavm.Holly.forwardRequestInterrupts]

theorem tbMaskLow30 (i : Nat) : Nat.testBit 0x3fffffff i = decide (i < 30) := by
  have h : (0x3fffffff : Nat) = 2 ^ 30 - 1 := by norm_num
  rw [h, Nat.testBit_two_pow_sub_one]

theorem tbBit30 (i : Nat) : Nat.testBit 0x40000000 i = decide (30 = i) := by
  have h : (0x40000000 : Nat) = 2 ^ 30 := by norm_num
  rw [h, Nat.testBit_two_pow]

theorem tbBit31 (i : Nat) : Nat.testBit 0x80000000 i = decide (31 = i) := by
  have h : (0x80000000 : Nat) = 2 ^ 31 := by norm_num
  rw [h, Nat.testBit_two_pow]

/-- C10: a read of `SB_ISTNRM` does not return the raw register: bits 0..29
    come from the register, bit 30 is set iff `SB_ISTEXT` is nonzero, bit 31
    is set iff `SB_ISTERR` is nonzero, and all higher bits are clear. -/
theorem c10_istnrm_read (s : Dreavm.Holly.State) :
    (∀ i, i < 30 →
      (Dreavm.Holly.readISTNRM s).testBit i = s.SB_ISTNRM.testBit i) ∧
    (Dreavm.Holly.readISTNRM s).testBit 30 = (s.SB_ISTEXT != 0) ∧
    (Dreavm.Holly.readISTNRM s).testBit 31 = (s.SB_ISTERR != 0) ∧
    (∀ i, 32 ≤ i → (Dreavm.Holly.readISTNRM s).testBit i = false) := by
  refine ⟨?_, ?_, ?_, ?_⟩
  · intro i hi
    have e30 : Nat.testBit 0x40000000 i = false := by
      rw [tbBit30]; simp only [decide_eq_false_iff_not]; omega
    have e31 : Nat.testBit 0x80000000 i = false := by
      rw [tbBit31]; simp only [decide_eq_false_iff_not]; omega
    simp only [Dreavm.Holly.readISTNRM]
    split <;> split <;>
      simp [Nat.testBit_or, Nat.testBit_and, tbMaskLow30, hi, e30, e31]
  · simp only [Dreavm.Holly.readISTNRM]
    split <;> split <;>
      simp_all [Nat.testBit_or, Nat.testBit_and, tbMaskLow30, tbBit30, tbBit31]
  · simp only [Dreavm.Holly.readISTNRM]
    split <;> split <;>
      simp_all [Nat.testBit_or, Nat.testBit_and, tbMaskLow30, tbBit30, tbBit31]
  · intro i hi
    have em : Nat.testBit 0x3fffffff i = false := by
      rw [tbMaskLow30]; simp only [decide_eq_false_iff_not]; omega
    have e30 : Nat.testBit 0x40000000 i = false := by
      rw [tbBit30]; simp only [decide_eq_false_iff_not]; omega
    have e31 : Nat.testBit 0x80000000 i = false := by
      rw [tbBit31]; simp only [decide_eq_false_iff_not]; omega
    simp only [Dreavm.Holly.readISTNRM]
    split <;> split <;>
      simp [Nat.testBit_or, Nat.testBit_and, em, e30, e31]

/-- Witness for C10 at a concrete state. -/
theorem c10_istnrm_read_witness :
    (Dreavm.Holly.readISTNRM
        { SB_ISTNRM := 0x5, SB_ISTEXT := 0x1, SB_ISTERR := 0,
          SB_IML2NRM := 0, SB_IML2EXT := 0, SB_IML2ERR := 0,
          SB_IML4NRM := 0, SB_IML4EXT := 0, SB_IML4ERR := 0,
          SB_IML6NRM := 0, SB_IML6EXT := 0, SB_IML6ERR := 0,
          irl9 := false, irl11 := false, irl13 := false }).testBit 2 =
      (0x5 : Nat).testBit 2 :=
  (c10_istnrm_read _).1 2 (by norm_num)

namespace Dreavm

/-! ## Tile accelerator (src/hw/pvr/ta.c) -/

namespace TA

/-- `pcw.para_type`, a 3-bit field (`TA_PARAM_*`).  The two reserved
    encodings fall to `ta_get_param_size_raw`'s `default` case. -/
inductive ParaType
  | endOfList
  | userTileClip
  | objListSet
  | reserved3
  | polyOrVol
  | sprite
  | reserved6
  | vertex
deriving DecidableEq, Repr

/-- `pcw.list_type` (`TA_LIST_*`).  `TA_NUM_LISTS` (the "no current list"
    sentinel stored in a tile context) is modelled as `Option.none` at the
    context level. -/
inductive ListType
  | opq
  | opaqueModvol
  | translucent
  | translucentModvol
  | punchThrough
deriving DecidableEq, Repr

/-- `TA_NUM_VERTS`, the sentinel vertex type stored by `ta_init_context`. -/
def TA_NUM_VERTS : Nat := 18

/-- The parameter control word fields consulted by the sizing and typing
    functions (`union pcw`). -/
structure Pcw where
  para_type : ParaType
  list_type : ListType
  volume : Bool
  col_type : Fin 4
  texture : Bool
  offset : Bool
  uv_16bit : Bool
deriving DecidableEq, Repr

instance : Inhabited Pcw :=
  ⟨⟨.endOfList, .opq, false, 0, false, false, false⟩⟩

/-- `ta_get_poly_type_raw`: derives the polygon type 0-6 from the PCW per
    the parameter combination rules. -/
def ta_get_poly_type_raw (pcw : Pcw) : Nat :=
  if pcw.list_type = .opaqueModvol ∨ pcw.list_type = .translucentModvol then 6
  else if pcw.para_type = .sprite then 5
  else if pcw.volume ∧ pcw.col_type = 0 then 3
  else if pcw.volume ∧ pcw.col_type = 2 then 4
  else if pcw.volume ∧ pcw.col_type = 3 then 3
  else if pcw.col_type = 0 ∨ pcw.col_type = 1 ∨ pcw.col_type = 3 then 0
  else if pcw.col_type = 2 ∧ pcw.texture ∧ ¬ pcw.offset then 1
  else if pcw.col_type = 2 ∧ pcw.texture ∧ pcw.offset then 2
  else if pcw.col_type = 2 ∧ ¬ pcw.texture then 1
  else 0

/-- `ta_get_vert_type_raw`: derives the vertex type 0-17 from the PCW. -/
def ta_get_vert_type_raw (pcw : Pcw) : Nat :=
  if pcw.list_type = .opaqueModvol ∨ pcw.list_type = .translucentModvol then 17
  else if pcw.para_type = .sprite then (if pcw.texture then 16 else 15)
  else if pcw.volume ∧ pcw.texture ∧ pcw.col_type = 0 then
    (if pcw.uv_16bit then 12 else 11)
  else if pcw.volume ∧ pcw.texture ∧ (pcw.col_type = 2 ∨ pcw.col_type = 3) then
    (if pcw.uv_16bit then 14 else 13)
  else if pcw.volume ∧ pcw.col_type = 0 then 9
  else if pcw.volume ∧ (pcw.col_type = 2 ∨ pcw.col_type = 3) then 10
  else if pcw.texture ∧ pcw.col_type = 0 then (if pcw.uv_16bit then 4 else 3)
  else if pcw.texture ∧ pcw.col_type = 1 then (if pcw.uv_16bit then 6 else 5)
  else if pcw.texture ∧ (pcw.col_type = 2 ∨ pcw.col_type = 3) then
    (if pcw.uv_16bit then 8 else 7)
  else if pcw.col_type = 0 then 0
  else if pcw.col_type = 1 then 1
  else if pcw.col_type = 2 ∨ pcw.col_type = 3 then 2
  else 0

/-- `ta_get_param_size_raw`: the byte size (32 or 64) of the command headed
    by `pcw`, given the current vertex type. -/
def ta_get_param_size_raw (pcw : Pcw) (vertex_type : Nat) : Nat :=
  match pcw.para_type with
  | .endOfList => 32
  | .userTileClip => 32
  | .objListSet => 32
  | .polyOrVol =>
      let ty := ta_get_poly_type_raw pcw
      if ty = 0 ∨ ty = 1 ∨ ty = 3 then 32 else 64
  | .sprite => 32
  | .vertex =>
      if vertex_type = 0 ∨ vertex_type = 1 ∨ vertex_type = 2 ∨
         vertex_type = 3 ∨ vertex_type = 4 ∨ vertex_type = 7 ∨
         vertex_type = 8 ∨ vertex_type = 9 ∨ vertex_type = 10
      then 32 else 64
  | _ => 0

/-- `ta_get_param_size` looks the size up in `g_param_sizes`, which
    `ta_build_tables` fills with `ta_get_param_size_raw` for every index. -/
def ta_get_param_size (pcw : Pcw) (vertex_type : Nat) : Nat :=
  ta_get_param_size_raw pcw vertex_type

/-- `ta_get_vert_type` looks the type up in `g_vertex_types`, filled with
    `ta_get_vert_type_raw`. -/
def ta_get_vert_type (pcw : Pcw) : Nat :=
  ta_get_vert_type_raw pcw

end TA

end Dreavm

/-- C4: the TA command size function returns 32 bytes for `END_OF_LIST`,
    `USER_TILE_CLIP`, `OBJ_LIST_SET` and `SPRITE`; for `POLY_OR_VOL` 32 bytes
    iff the derived poly type is 0, 1 or 3, else 64; for `VERTEX` 32 bytes
    iff the current vertex type is one of 0-4, 7-10, else 64 — in particular
    `END_OF_LIST` gives 32, poly-type 0 gives 32, poly-type 2 gives 64,
    vertex-type 5 gives 64 and vertex-type 0 gives 32. -/
theorem c4_ta_param_sizes (pcw : Dreavm.TA.Pcw) (vt : Nat) :
    (pcw.para_type = .endOfList ∨ pcw.para_type = .userTileClip ∨
     pcw.para_type = .objListSet ∨ pcw.para_type = .sprite →
      Dreavm.TA.ta_get_param_size_raw pcw vt = 32) ∧
    (pcw.para_type = .polyOrVol →
      Dreavm.TA.ta_get_param_size_raw pcw vt =
        (if Dreavm.TA.ta_get_poly_type_raw pcw = 0 ∨
            Dreavm.TA.ta_get_poly_type_raw pcw = 1 ∨
            Dreavm.TA.ta_get_poly_type_raw pcw = 3 then 32 else 64)) ∧
    (pcw.para_type = .vertex →
      Dreavm.TA.ta_get_param_size_raw pcw vt =
        (if vt = 0 ∨ vt = 1 ∨ vt = 2 ∨ vt = 3 ∨ vt = 4 ∨ vt = 7 ∨ vt = 8 ∨
            vt = 9 ∨ vt = 10 then 32 else 64)) ∧
    (∀ q : Dreavm.TA.Pcw,
      (q.para_type = .endOfList → Dreavm.TA.ta_get_param_size_raw q vt = 32) ∧
      (q.para_type = .polyOrVol → Dreavm.TA.ta_get_poly_type_raw q = 0 →
        Dreavm.TA.ta_get_param_size_raw q vt = 32) ∧
      (q.para_type = .polyOrVol → Dreavm.TA.ta_get_poly_type_raw q = 2 →
        Dreavm.TA.ta_get_param_size_raw q vt = 64)) ∧
    (pcw.para_type = .vertex → vt = 5 →
      Dreavm.TA.ta_get_param_size_raw pcw vt = 64) ∧
    (pcw.para_type = .vertex → vt = 0 →
      Dreavm.TA.ta_get_param_size_raw pcw vt = 32) := by
  refine ⟨?_, ?_, ?_, ?_, ?_, ?_⟩
  · rintro (h | h | h | h) <;> simp [Dreavm.TA.ta_get_param_size_raw, h]
  · intro h
    simp [Dreavm.TA.ta_get_param_size_raw, h]
  · intro h
    simp [Dreavm.TA.ta_get_param_size_raw, h]
  · intro q
    refine ⟨?_, ?_, ?_⟩
    · intro h; simp [Dreavm.TA.ta_get_param_size_raw, h]
    · intro h hp; simp [Dreavm.TA.ta_get_param_size_raw, h, hp]
    · intro h hp; simp [Dreavm.TA.ta_get_param_size_raw, h, hp]
  · intro h hv; subst hv; simp [Dreavm.TA.ta_get_param_size_raw, h]
  · intro h hv; subst hv; simp [Dreavm.TA.ta_get_param_size_raw, h]

/-- Witness for C4: a textured-offset colour-2 poly header (poly type 2)
    sizes to 64 bytes, and an `END_OF_LIST` to 32. -/
theorem c4_ta_param_sizes_witness :
    Dreavm.TA.ta_get_param_size_raw
      ⟨.polyOrVol, .opq, false, 2, true, true, false⟩ 0 = 64 ∧
    Dreavm.TA.ta_get_param_size_raw
      ⟨.endOfList, .opq, false, 0, false, false, false⟩ 3 = 32 := by
  constructor
  · exact ((c4_ta_param_sizes ⟨.endOfList, .opq, false, 0, false, false,
      false⟩ 0).2.2.2.1 ⟨.polyOrVol, .opq, false, 2, true, true, false⟩).2.2
      rfl (by decide)
  · exact ((c4_ta_param_sizes ⟨.polyOrVol, .opq, false, 2, true, true,
      false⟩ 3).2.2.2.1 ⟨.endOfList, .opq, false, 0, false, false, false⟩).1
      rfl

namespace Dreavm.TA

/-- The holly interrupts raised by the TA paths modelled here:
    `list_interrupts[list_type]` on `END_OF_LIST`, and the three render-done
    interrupts raised by `ta_end_render`
    (`HOLLY_INTC_PCEOVINT/PCEOIINT/PCEOTINT`). -/
inductive HIntr
  | taListComplete (lt : ListType)
  | pceovint
  | pceoiint
  | pceotint
deriving DecidableEq, Repr

/-- `struct tile_ctx`, with the parameter buffer at 32-byte granularity:
    entry `i` of `params` is the leading word of bytes `[32*i, 32*i+32)`
    reinterpreted as a `union pcw` (every TA poly-FIFO write is a multiple of
    32 bytes, as `ta_poly_fifo_write` CHECKs).  `list_type = none` models the
    `TA_NUM_LISTS` sentinel. -/
structure TileCtx where
  addr : Nat
  cursor : Nat
  size : Nat
  list_type : Option ListType
  vertex_type : Nat
  params : List Pcw
deriving DecidableEq, Repr

/-- `ta_write_context` for one 32-byte chunk (the poly FIFO feeds it exactly
    32 bytes at a time): append the chunk, and if the command at the cursor
    is now complete, process it.  `LOG_FATAL` on a completed `OBJ_LIST_SET`
    becomes `none`.  The second component collects the raised holly
    interrupts. -/
def ta_write_context (ctx : TileCtx) (chunk : Pcw) :
    Option (TileCtx × List HIntr) :=
  let ctx1 : TileCtx :=
    { ctx with params := ctx.params ++ [chunk], size := ctx.size + 32 }
  let pcw := ctx1.params.getD (ctx1.cursor / 32) default
  let psize := ta_get_param_size pcw ctx1.vertex_type
  let recv := ctx1.size - ctx1.cursor
  if recv < psize then
    some (ctx1, [])
  else if pcw.para_type = .endOfList then
    let intrs := match ctx1.list_type with
      | some lt => [HIntr.taListComplete lt]
      | none => []
    some ({ ctx1 with list_type := none, vertex_type := TA_NUM_VERTS,
                      cursor := ctx1.cursor + recv }, intrs)
  else if pcw.para_type = .objListSet then
    none
  else
    let ctx2 :=
      if pcw.para_type = .polyOrVol ∨ pcw.para_type = .sprite then
        { ctx1 with vertex_type := ta_get_vert_type pcw }
      else ctx1
    let ctx3 :=
      if (pcw.para_type = .objListSet ∨ pcw.para_type = .polyOrVol ∨
          pcw.para_type = .sprite) ∧ ctx2.list_type = none then
        { ctx2 with list_type := some pcw.list_type }
      else ctx2
    some ({ ctx3 with cursor := ctx3.cursor + recv }, [])

/-- The TA state touched by the render-start protocol.  `timers` records the
    deadlines of armed render timers, `raised` the holly interrupts raised so
    far, and `textures` stands for the texture cache entry pool (only its
    identity matters to the claims below). -/
structure TaState where
  live_contexts : List TileCtx
  free_contexts : List TileCtx
  pending_context : Option TileCtx
  frame : Nat
  frames_skipped : Nat
  raised : List HIntr
  timers : List Int
  textures : List (Nat × Nat)

/-- `ta_get_context`: look the context up by address in the live tree. -/
def ta_get_context (s : TaState) (addr : Nat) : Option TileCtx :=
  s.live_contexts.find? (fun c => c.addr == addr)

/-- `ta_start_render`.  `saveReg` models `ta_save_register_state` (it reads
    only PVR registers and VRAM, outside this state) and `registerTextures`
    models `ta_register_textures` (walks the context's params, touches the
    texture cache, and counts polys); both are code outside the paths the
    claims constrain, so they are taken as parameters.  `mutexHeld` is the
    outcome of `mutex_trylock` on the pending-context mutex: `true` means the
    render thread still holds it.  `CHECK_NOTNULL` on a missing context
    becomes `none`. -/
def ta_start_render (saveReg : TileCtx → TileCtx)
    (registerTextures : TaState → TileCtx → TaState × Nat)
    (s : TaState) (mutexHeld : Bool) (addr : Nat) : Option TaState :=
  match ta_get_context s addr with
  | none => none
  | some ctx0 =>
    let ctx := saveReg ctx0
    let live' := s.live_contexts.eraseP (fun c => c.addr == addr)
    if mutexHeld then
      some { s with live_contexts := live',
                    free_contexts := ctx :: s.free_contexts,
                    raised := s.raised ++ [.pceovint, .pceoiint, .pceotint],
                    frames_skipped := s.frames_skipped + 1 }
    else
      let s1 : TaState :=
        match s.pending_context with
        | some p => { s with free_contexts := p :: s.free_contexts,
                             pending_context := none }
        | none => s
      let s2 : TaState :=
        { s1 with live_contexts := live', pending_context := some ctx,
                  frame := s1.frame + 1 }
      let rt := registerTextures s2 ctx
      some { rt.1 with timers := rt.1.timers ++ [((rt.2 : Int) * 333)] }

end Dreavm.TA

/-- C9: a completed `END_OF_LIST` written to the poly FIFO raises the
    list-complete interrupt exactly when a list type is current, raises
    nothing when none is, and in both cases resets the context's list type
    and vertex type to their sentinels. -/
theorem c9_end_of_list (ctx : Dreavm.TA.TileCtx) (chunk : Dreavm.TA.Pcw)
    (h1 : chunk.para_type = .endOfList) (h2 : ctx.cursor = ctx.size)
    (h3 : ctx.params.length * 32 = ctx.size) :
    ∃ ctx' : Dreavm.TA.TileCtx,
      Dreavm.TA.ta_write_context ctx chunk =
        some (ctx',
          match ctx.list_type with
          | some lt => [Dreavm.TA.HIntr.taListComplete lt]
          | none => []) ∧
      ctx'.list_type = none ∧ ctx'.vertex_type = Dreavm.TA.TA_NUM_VERTS := by
  have hidx : ctx.cursor / 32 = ctx.params.length := by omega
  have hget : (ctx.params ++ [chunk])[ctx.cursor / 32]? = some chunk := by
    rw [hidx]
    simp
  have hrecv : ctx.size + 32 - ctx.cursor = 32 := by omega
  refine ⟨{ ctx with
      params := ctx.params ++ [chunk],
      size := ctx.size + 32,
      list_type := none,
      vertex_type := Dreavm.TA.TA_NUM_VERTS,
      cursor := ctx.cursor + (ctx.size + 32 - ctx.cursor) }, ?_, rfl, rfl⟩
  simp [Dreavm.TA.ta_write_context, hget, hrecv, h1,
    Dreavm.TA.ta_get_param_size, Dreavm.TA.ta_get_param_size_raw]

/-- Witness for C9: an `END_OF_LIST` closing an opaque list raises that
    list's completion interrupt and resets the list state. -/
theorem c9_end_of_list_witness :
    ∃ ctx' : Dreavm.TA.TileCtx,
      Dreavm.TA.ta_write_context
          { addr := 0, cursor := 32, size := 32, list_type := some .opq,
            vertex_type := 3,
            params := [⟨.polyOrVol, .opq, false, 0, false, false, false⟩] }
          ⟨.endOfList, .opq, false, 0, false, false, false⟩ =
        some (ctx', [Dreavm.TA.HIntr.taListComplete .opq]) ∧
      ctx'.list_type = none ∧ ctx'.vertex_type = Dreavm.TA.TA_NUM_VERTS :=
  c9_end_of_list
    { addr := 0, cursor := 32, size := 32, list_type := some .opq,
      vertex_type := 3,
      params := [⟨.polyOrVol, .opq, false, 0, false, false, false⟩] }
    ⟨.endOfList, .opq, false, 0, false, false, false⟩ rfl rfl rfl

/-- C6: a `STARTRENDER` that finds the pending-context mutex held never
    waits: it unlinks and frees the local tile context, raises the three
    render-done interrupts immediately, increments `frames_skipped`, arms no
    timer, and leaves the pending context, the texture cache and the frame
    number unchanged. -/
theorem c6_start_render_busy (saveReg : Dreavm.TA.TileCtx → Dreavm.TA.TileCtx)
    (registerTextures :
      Dreavm.TA.TaState → Dreavm.TA.TileCtx → Dreavm.TA.TaState × Nat)
    (s : Dreavm.TA.TaState) (addr : Nat) (ctx0 : Dreavm.TA.TileCtx)
    (hfound : Dreavm.TA.ta_get_context s addr = some ctx0) :
    ∃ s' : Dreavm.TA.TaState,
      Dreavm.TA.ta_start_render saveReg registerTextures s true addr =
        some s' ∧
      s'.pending_context = s.pending_context ∧
      s'.textures = s.textures ∧
      s'.timers = s.timers ∧
      s'.frame = s.frame ∧
      s'.frames_skipped = s.frames_skipped + 1 ∧
      s'.raised = s.raised ++ [.pceovint, .pceoiint, .pceotint] ∧
      s'.live_contexts =
        s.live_contexts.eraseP (fun c => c.addr == addr) ∧
      s'.free_contexts = saveReg ctx0 :: s.free_contexts := by
  refine ⟨{ s with
      live_contexts := s.live_contexts.eraseP (fun c => c.addr == addr),
      free_contexts := saveReg ctx0 :: s.free_contexts,
      raised := s.raised ++ [.pceovint, .pceoiint, .pceotint],
      frames_skipped := s.frames_skipped + 1 },
    ?_, rfl, rfl, rfl, rfl, rfl, rfl, rfl, rfl⟩
  simp [Dreavm.TA.ta_start_render, hfound]

/-- Witness for C6 at a concrete one-context state. -/
theorem c6_start_render_busy_witness :
    ∃ s' : Dreavm.TA.TaState,
      Dreavm.TA.ta_start_render id (fun s _ => (s, 0))
          { live_contexts := [{ addr := 4, cursor := 0, size := 0,
                                list_type := none, vertex_type := 18,
                                params := [] }],
            free_contexts := [], pending_context := none, frame := 2,
            frames_skipped := 0, raised := [], timers := [], textures := [] }
          true 4 = some s' ∧
      s'.pending_context = none ∧
      s'.textures = [] ∧
      s'.timers = [] ∧
      s'.frame = 2 ∧
      s'.frames_skipped = 0 + 1 ∧
      s'.raised = [] ++ [.pceovint, .pceoiint, .pceotint] ∧
      s'.live_contexts =
        ([{ addr := 4, cursor := 0, size := 0, list_type := none,
            vertex_type := 18,
            params := [] }] : List Dreavm.TA.TileCtx).eraseP
          (fun c => c.addr == 4) ∧
      s'.free_contexts = [id { addr := 4, cursor := 0, size := 0,
                               list_type := none, vertex_type := 18,
                               params := [] }] := by
  have h := c6_start_render_busy id (fun s _ => (s, 0))
    { live_contexts := [{ addr := 4, cursor := 0, size := 0,
                          list_type := none, vertex_type := 18, params := [] }],
      free_contexts := [], pending_context := none, frame := 2,
      frames_skipped := 0, raised := [], timers := [], textures := [] }
    4
    { addr := 4, cursor := 0, size := 0, list_type := none, vertex_type := 18,
      params := [] }
    (by simp [Dreavm.TA.ta_get_context])
  exact h

namespace Dreavm.Arm7

/-! ## ARM7 mode switching (src/guest/arm7/arm7.c)

`armv3_context.h` and `arm7.h` are not under src/, so the CPSR layout, the
banked-register tables and the interrupt enum are modelled from the spec:
the mode field `M` is CPSR[4:0], the FIQ-disable bit `F` is CPSR[6], the
IRQ-disable bit `I` is CPSR[7] (architectural ARM constants the spec's
"CPSR's I and F bits" refers to), and the bank tables are taken as
parameters. -/

def M_MASK : Nat := 0x1f

def F_MASK : Nat := 0x40

def I_MASK : Nat := 0x80

/-- Modelled from the spec: `enum arm7_interrupt` (arm7.h, not under src/)
    has the single FIQ line the AICA ARM uses; its bit value is immaterial. -/
def ARM7_INT_FIQ : Nat := 1

/-- `F_CLEAR(sr)`: the FIQ-disable bit is clear. -/
def F_CLEAR (sr : Nat) : Bool := sr &&& F_MASK == 0

/-- Modelled from the spec: the indices of the virtual CPSR/SPSR slots and
    the per-mode banked-register/SPSR slot tables of `armv3_context.h`
    (not under src/), taken as parameters.  `spsr_table m = 0` plays the
    C tables' role of "mode `m` has no banked SPSR" (`if
    (armv3_spsr_table[old_mode])`). -/
structure Tables where
  CPSR : Nat
  SPSR : Nat
  reg_table : Nat → Fin 7 → Nat
  spsr_table : Nat → Nat

/-- `struct armv3_context`, restricted to the fields the mode-switch helpers
    touch: the register window/bank array `r`, and the interrupt words. -/
structure Ctx where
  r : Nat → Nat
  requested_interrupts : Nat
  pending_interrupts : Nat

/-- `arm7_update_pending_interrupts`: the pending mask is recomputed from
    `F_CLEAR(CPSR)` alone — there is no IRQ line. -/
def arm7_update_pending_interrupts (t : Tables) (a : Ctx) : Ctx :=
  let interrupt_mask := if F_CLEAR (a.r t.CPSR) then ARM7_INT_FIQ else 0
  { a with pending_interrupts := a.requested_interrupts &&& interrupt_mask }

/-- The body of the banked-register loop of `arm7_swap_registers`
    (`n = 8 + i`), with the three array assignments performed in program
    order. -/
def swapStep (t : Tables) (old_mode new_mode : Nat) (r : Nat → Nat)
    (i : Fin 7) : Nat → Nat :=
  let n := 8 + i.1
  let old_n := t.reg_table old_mode i
  let new_n := t.reg_table new_mode i
  let tmp := r n
  let r1 := Function.update r n (r old_n)
  let r2 := Function.update r1 new_n (r1 old_n)
  let r3 := Function.update r2 old_n tmp
  r3

/-- `arm7_swap_registers`: early-out on equal modes; otherwise store the
    virtual SPSR to the old mode's bank, run the 7-iteration register loop,
    and load the new mode's banked SPSR into the virtual SPSR. -/
def arm7_swap_registers (t : Tables) (r : Nat → Nat)
    (old_mode new_mode : Nat) : Nat → Nat :=
  if old_mode = new_mode then r
  else
    let ra := if t.spsr_table old_mode ≠ 0 then
        Function.update r (t.spsr_table old_mode) (r t.SPSR)
      else r
    let rb := (List.finRange 7).foldl (swapStep t old_mode new_mode) ra
    let rc := if t.spsr_table new_mode ≠ 0 then
        Function.update rb t.SPSR (rb (t.spsr_table new_mode))
      else rb
    rc

/-- `arm7_switch_mode`: swap banks between the CPSR mode and the mode bits
    of `new_sr`, save CPSR to the virtual SPSR, install `new_sr` as CPSR,
    and recompute the pending interrupts. -/
def arm7_switch_mode (t : Tables) (a : Ctx) (new_sr : Nat) : Ctx :=
  let old_mode := a.r t.CPSR &&& M_MASK
  let new_mode := new_sr &&& M_MASK
  let r := arm7_swap_registers t a.r old_mode new_mode
  let r := Function.update r t.SPSR (r t.CPSR)
  let r := Function.update r t.CPSR new_sr
  arm7_update_pending_interrupts t { a with r := r }

/-- Concrete tables for the counterexample: mode `m`'s seven bank slots are
    `20 + 8*m + i`, its SPSR slot is `40 + m`, the virtual CPSR/SPSR sit at
    16/17; all slot families are disjoint from the window `r8..r15`. -/
def cexTables : Tables :=
  { CPSR := 16, SPSR := 17,
    reg_table := fun m i => 20 + 8 * m + i.1,
    spsr_table := fun m => 40 + m }

/-- The concrete context for the counterexample: register slot `k` holds
    `100 + k`, except CPSR (slot 16) holds 0 (mode 0, I and F clear);
    the FIQ interrupt is requested. -/
def cexCtx : Ctx :=
  { r := fun k => if k = 16 then 0 else 100 + k,
    requested_interrupts := ARM7_INT_FIQ,
    pending_interrupts := 0 }

end Dreavm.Arm7

namespace Dreavm.Arm7

theorem swapStep_untouched (t : Tables) (old_mode new_mode : Nat)
    (r : Nat → Nat) (i : Fin 7) (k : Nat) (h1 : k ≠ 8 + i.1)
    (h2 : k ≠ t.reg_table old_mode i) (h3 : k ≠ t.reg_table new_mode i) :
    swapStep t old_mode new_mode r i k = r k := by
  simp [swapStep, Function.update_apply, h1, h2, h3]

theorem swapFold_untouched (t : Tables) (old_mode new_mode : Nat)
    (l : List (Fin 7)) (r : Nat → Nat) (k : Nat)
    (h : ∀ i ∈ l, k ≠ 8 + i.1 ∧ k ≠ t.reg_table old_mode i ∧
          k ≠ t.reg_table new_mode i) :
    l.foldl (swapStep t old_mode new_mode) r k = r k := by
  induction l generalizing r with
  | nil => rfl
  | cons a as ih =>
    have ha := h a (List.mem_cons_self a as)
    rw [List.foldl_cons, ih _ (fun i hi => h i (List.mem_cons_of_mem a hi))]
    exact swapStep_untouched t old_mode new_mode r a k ha.1 ha.2.1 ha.2.2

end Dreavm.Arm7

/-- C5 counterexample: the claim fails on the code at a concrete input.
    Switching `cexCtx` (mode 0, bank slots holding `100+k`) to
    `new_sr = 0x81` (mode 1, I set): the active window register r8 receives
    the OLD mode's bank-slot content (120), not the new mode's banked value
    (128) as "swaps the active bank ... for the new mode into the r[]
    window" requires; only the 7 registers r8-r14 move while r15 is
    untouched, contradicting "8 banked registers"; and the recomputed
    pending mask is identical whether the I bit of the new CPSR is set
    (0x81) or clear (0x01), contradicting "from both the I and F bits". -/
theorem c5_arm7_mode_switch_cex :
    ((Dreavm.Arm7.arm7_switch_mode Dreavm.Arm7.cexTables Dreavm.Arm7.cexCtx
        0x81).r 8 =
      Dreavm.Arm7.cexCtx.r (Dreavm.Arm7.cexTables.reg_table 0 (0 : Fin 7))) ∧
    ((Dreavm.Arm7.arm7_switch_mode Dreavm.Arm7.cexTables Dreavm.Arm7.cexCtx
        0x81).r 8 ≠
      Dreavm.Arm7.cexCtx.r (Dreavm.Arm7.cexTables.reg_table 1 (0 : Fin 7))) ∧
    ((Dreavm.Arm7.arm7_switch_mode Dreavm.Arm7.cexTables Dreavm.Arm7.cexCtx
        0x81).r 14 ≠ Dreavm.Arm7.cexCtx.r 14) ∧
    ((Dreavm.Arm7.arm7_switch_mode Dreavm.Arm7.cexTables Dreavm.Arm7.cexCtx
        0x81).r 15 = Dreavm.Arm7.cexCtx.r 15) ∧
    ((Dreavm.Arm7.arm7_switch_mode Dreavm.Arm7.cexTables Dreavm.Arm7.cexCtx
        0x81).pending_interrupts =
      (Dreavm.Arm7.arm7_switch_mode Dreavm.Arm7.cexTables Dreavm.Arm7.cexCtx
        0x01).pending_interrupts) := by
  decide

/-- C5 (amended): on a transition between distinct modes the helper swaps 7
    banked registers (r8-r14), not 8: for each banked position `i` the loop
    body writes the active register out to the old mode's slot and loads the
    old mode's slot content into the window and into the new mode's slot
    (the code's own comment says the NEW mode's bank is loaded, but the code
    reads `r[old_n]`); any slot that is neither a window register r8-r14 nor
    a bank/SPSR slot of either mode — in particular r15 — is untouched; and
    the pending-interrupt mask is recomputed from the F bit of CPSR alone
    (FIQ is the only interrupt line). -/
theorem c5_arm7_mode_switch_amended (t : Dreavm.Arm7.Tables)
    (a : Dreavm.Arm7.Ctx) (old_mode new_mode : Nat) (r : Nat → Nat)
    (i : Fin 7) (k : Nat) :
    ((Dreavm.Arm7.arm7_update_pending_interrupts t a).pending_interrupts =
      (a.requested_interrupts &&&
        (if a.r t.CPSR &&& Dreavm.Arm7.F_MASK == 0 then
          Dreavm.Arm7.ARM7_INT_FIQ else 0))) ∧
    (t.reg_table old_mode i ≠ 8 + i.1 → t.reg_table new_mode i ≠ 8 + i.1 →
     t.reg_table new_mode i ≠ t.reg_table old_mode i →
      (Dreavm.Arm7.swapStep t old_mode new_mode r i)
          (t.reg_table old_mode i) = r (8 + i.1) ∧
      (Dreavm.Arm7.swapStep t old_mode new_mode r i) (8 + i.1) =
          r (t.reg_table old_mode i) ∧
      (Dreavm.Arm7.swapStep t old_mode new_mode r i)
          (t.reg_table new_mode i) = r (t.reg_table old_mode i)) ∧
    (old_mode ≠ new_mode →
     (∀ j : Fin 7, k ≠ 8 + j.1 ∧ k ≠ t.reg_table old_mode j ∧
        k ≠ t.reg_table new_mode j) →
     k ≠ t.spsr_table old_mode → k ≠ t.SPSR →
      Dreavm.Arm7.arm7_swap_registers t r old_mode new_mode k = r k) := by
  refine ⟨rfl, ?_, ?_⟩
  · intro h1 h2 h3
    refine ⟨?_, ?_, ?_⟩ <;>
      simp [Dreavm.Arm7.swapStep, Function.update_apply, h1, h2, h3,
        Ne.symm h1, Ne.symm h2, Ne.symm h3]
  · intro hne hwin hspsr hSPSR
    have hfold : ∀ rr : Nat → Nat,
        (List.finRange 7).foldl
          (Dreavm.Arm7.swapStep t old_mode new_mode) rr k = rr k :=
      fun rr => Dreavm.Arm7.swapFold_untouched t old_mode new_mode _ rr k
        (fun j _ => hwin j)
    simp only [Dreavm.Arm7.arm7_swap_registers, if_neg hne]
    split
    · rw [Function.update_apply, if_neg hSPSR, hfold]
      split
      · rw [Function.update_apply, if_neg hspsr]
      · rfl
    · rw [hfold]
      split
      · rw [Function.update_apply, if_neg hspsr]
      · rfl

/-- Witness for C5 (amended) at the concrete counterexample tables, applied
    at `k = 15`: r15 is untouched by the swap. -/
theorem c5_arm7_mode_switch_amended_witness :
    Dreavm.Arm7.arm7_swap_registers Dreavm.Arm7.cexTables
      Dreavm.Arm7.cexCtx.r 0 1 15 = Dreavm.Arm7.cexCtx.r 15 :=
  (c5_arm7_mode_switch_amended Dreavm.Arm7.cexTables Dreavm.Arm7.cexCtx 0 1
      Dreavm.Arm7.cexCtx.r (0 : Fin 7) 15).2.2
    (by decide) (fun j => ⟨by omega, by simp [Dreavm.Arm7.cexTables]; omega,
      by simp [Dreavm.Arm7.cexTables]; omega⟩)
    (by decide) (by decide)

namespace Dreavm.CProp

/-! ## Constant propagation (src/jit/ir/passes/constant_propagation_pass.cc)

The pass walks each block; an instruction is folded only when its op's fold
mask is nonzero, every argument the mask names is constant, and a fold
callback is registered for the `(op, result type, arg0 type, arg1 type)`
signature.  Folding replaces all references to the result with a constant
and removes the instruction (`RemoveInstr`, modelled as the output slot
becoming `none`).  The arithmetic a callback performs is irrelevant to the
claims settled here, so the callback bodies are a parameter `foldEval`;
which callbacks exist — the `REGISTER_FOLD` table — is modelled exactly. -/

/-- `VALUE_*` type tags; `v` is `VALUE_V`, used for a missing result or
    argument when computing the callback signature. -/
inductive VType
  | i8 | i16 | i32 | i64 | f32 | f64 | v
deriving DecidableEq, Repr

/-- The IR opcodes named by the pass.  `other n` stands for the remaining
    ops (loads, stores, calls, ...), none of which registers a fold mask. -/
inductive Opcode
  | select | eq | ne | sge | sgt | sle | slt
  | add | sub | smul | umul
  | div | neg | sqrt | abs | sin | cos
  | and_op | or_op | xor_op | not_op
  | shl | ashr | lshr
  | uge | ugt | ule | ult
  | branch | branchCond | callExternal
  | other (n : Nat)
deriving DecidableEq, Repr

/-- `fold_masks`: set by the `FOLD(op, mask)` declarations; every other op
    keeps the zero-initialized mask. -/
def fold_masks (o : Opcode) : Nat :=
  match o with
  | .select => 1
  | .eq | .ne | .sge | .sgt | .sle | .slt => 3
  | .add | .sub | .smul | .umul => 3
  | .and_op | .or_op | .xor_op => 3
  | .not_op => 1
  | .shl | .lshr => 3
  | _ => 0

/-- Whether `t` is one of the integer value types. -/
def isIntT (t : VType) : Bool :=
  match t with
  | .i8 | .i16 | .i32 | .i64 => true
  | _ => false

/-- Whether `t` is an integer or float value type. -/
def isNumT (t : VType) : Bool :=
  match t with
  | .i8 | .i16 | .i32 | .i64 | .f32 | .f64 => true
  | _ => false

/-- `fold_cbs` membership: the exact set of signatures the `REGISTER_FOLD`
    lines install. -/
def hasFoldFn (o : Opcode) (r a0 a1 : VType) : Bool :=
  match o with
  | .select => isIntT r && r == a0 && a0 == a1
  | .eq | .ne | .sge | .sgt | .sle | .slt =>
      r == .i8 && isNumT a0 && a0 == a1
  | .add | .sub | .smul => isNumT r && r == a0 && a0 == a1
  | .umul => isIntT r && r == a0 && a0 == a1
  | .and_op | .or_op | .xor_op => isIntT r && r == a0 && a0 == a1
  | .not_op => isIntT r && r == a0 && a1 == .v
  | .shl | .lshr => isIntT r && r == a0 && a1 == .i32
  | _ => false

/-- An IR value: a typed constant bit pattern, or a reference to the result
    of the instruction at block position `idx`. -/
inductive Value
  | cnst (t : VType) (bits : Nat)
  | ref (idx : Nat) (t : VType)
deriving DecidableEq, Repr

/-- An instruction: op, result type (`VType.v` when there is no result, as
    `GetFoldFn` passes `VALUE_V` then), and up to three arguments.  Its
    result is referenced by its position in the block. -/
structure Instr where
  op : Opcode
  rtype : VType
  arg0 : Option Value
  arg1 : Option Value
  arg2 : Option Value
deriving DecidableEq, Repr

/-- Replace a reference by what the substitution maps its defining
    instruction to (the effect of an earlier `ReplaceRefsWith`). -/
def substValue (σ : Nat → Option Value) (v : Value) : Value :=
  match v with
  | .cnst t b => .cnst t b
  | .ref idx t => (σ idx).getD (.ref idx t)

def substArg (σ : Nat → Option Value) (a : Option Value) : Option Value :=
  a.map (substValue σ)

def isConstArg : Option Value → Bool
  | some (.cnst _ _) => true
  | _ => false

/-- The type `GetFoldFn` reads off an argument slot (`VALUE_V` if absent). -/
def argType : Option Value → VType
  | some (.cnst t _) => t
  | some (.ref _ t) => t
  | none => .v

/-- The constant bit pattern of an argument (`ARG0()/ARG1()`). -/
def constBits : Option Value → Nat
  | some (.cnst _ b) => b
  | _ => 0

/-- `GetConstantSig`. -/
def GetConstantSig (i : Instr) : Nat :=
  ((if isConstArg i.arg0 then 1 else 0) |||
   (if isConstArg i.arg1 then 2 else 0)) |||
  (if isConstArg i.arg2 then 4 else 0)

/-- One iteration of `ConstantPropagationPass::Run`'s inner loop, acting on
    the instruction at position `idx` whose arguments have already been
    rewritten by earlier folds (`σ`).  Returns the updated substitution and
    the surviving instruction (`none` once `RemoveInstr` ran). -/
def runInstr (foldEval : Opcode → VType → Nat → Nat → Nat)
    (σ : Nat → Option Value) (idx : Nat) (instr : Instr) :
    (Nat → Option Value) × Option Instr :=
  let i' : Instr := { instr with
    arg0 := substArg σ instr.arg0,
    arg1 := substArg σ instr.arg1,
    arg2 := substArg σ instr.arg2 }
  let mask := fold_masks i'.op
  let csig := GetConstantSig i'
  if mask == 0 || (csig &&& mask) != mask then (σ, some i')
  else if ¬ hasFoldFn i'.op i'.rtype (argType i'.arg0) (argType i'.arg1) then
    (σ, some i')
  else if i'.op = .select then
    (Function.update σ idx
      (if constBits i'.arg0 ≠ 0 then i'.arg1 else i'.arg2), none)
  else
    (Function.update σ idx
      (some (.cnst i'.rtype
        (foldEval i'.op i'.rtype (constBits i'.arg0) (constBits i'.arg1)))),
     none)

/-- The pass over one block, position `idx` onward. -/
def runBlock (foldEval : Opcode → VType → Nat → Nat → Nat) :
    List Instr → (Nat → Option Value) → Nat → List (Option Instr)
  | [], _, _ => []
  | instr :: rest, σ, idx =>
      let step := runInstr foldEval σ idx instr
      step.2 :: runBlock foldEval rest step.1 (idx + 1)

/-- `ConstantPropagationPass::Run` on a block: slot `i` of the output is the
    surviving form of input instruction `i`, or `none` if it was folded away. -/
def ConstantPropagationPass_Run (foldEval : Opcode → VType → Nat → Nat → Nat)
    (instrs : List Instr) : List (Option Instr) :=
  runBlock foldEval instrs (fun _ => none) 0

/-- The ops the claim says are never folded. -/
def noFoldOp (o : Opcode) : Prop :=
  o = .div ∨ o = .neg ∨ o = .sqrt ∨ o = .abs ∨ o = .sin ∨ o = .cos

/-- All arguments of the instruction are constants (or absent). -/
def argsConst (i : Instr) : Prop :=
  (∀ v, i.arg0 = some v → ∃ t b, v = .cnst t b) ∧
  (∀ v, i.arg1 = some v → ∃ t b, v = .cnst t b) ∧
  (∀ v, i.arg2 = some v → ∃ t b, v = .cnst t b)

theorem runInstr_noFold (foldEval : Opcode → VType → Nat → Nat → Nat)
    (σ : Nat → Option Value) (idx : Nat) (instr : Instr)
    (h : noFoldOp instr.op) :
    runInstr foldEval σ idx instr =
      (σ, some { instr with
        arg0 := substArg σ instr.arg0,
        arg1 := substArg σ instr.arg1,
        arg2 := substArg σ instr.arg2 }) := by
  rcases h with h | h | h | h | h | h <;>
    simp [runInstr, fold_masks, h]

theorem substArg_const (σ : Nat → Option Value) (a : Option Value)
    (h : ∀ v, a = some v → ∃ t b, v = .cnst t b) : substArg σ a = a := by
  match a with
  | none => rfl
  | some v =>
      obtain ⟨t, b, rfl⟩ := h v rfl
      rfl

theorem runBlock_noFold (foldEval : Opcode → VType → Nat → Nat → Nat) :
    ∀ (l : List Instr) (σ : Nat → Option Value) (idx : Nat) (i : Nat)
      (hi : i < l.length), noFoldOp (l.get ⟨i, hi⟩).op →
      ∃ out : Instr,
        (runBlock foldEval l σ idx).get? i = some (some out) ∧
        out.op = (l.get ⟨i, hi⟩).op ∧
        out.rtype = (l.get ⟨i, hi⟩).rtype ∧
        (argsConst (l.get ⟨i, hi⟩) → out = l.get ⟨i, hi⟩) := by
  intro l
  induction l with
  | nil => intro σ idx i hi; exact absurd hi (by simp)
  | cons a as ih =>
    intro σ idx i hi hop
    match i with
    | 0 =>
        refine ⟨{ a with
            arg0 := substArg σ a.arg0,
            arg1 := substArg σ a.arg1,
            arg2 := substArg σ a.arg2 }, ?_, rfl, rfl, ?_⟩
        · simp [runBlock, runInstr_noFold foldEval σ idx a hop]
        · intro hc
          have e0 := substArg_const σ a.arg0 hc.1
          have e1 := substArg_const σ a.arg1 hc.2.1
          have e2 := substArg_const σ a.arg2 hc.2.2
          simp [e0, e1, e2]
    | Nat.succ j =>
        have hj : j < as.length := by
          simpa using Nat.lt_of_succ_lt_succ hi
        obtain ⟨out, h1, h2, h3, h4⟩ :=
          ih (runInstr foldEval σ idx a).1 (idx + 1) j hj (by simpa using hop)
        exact ⟨out, by simpa [runBlock] using h1, h2, h3, h4⟩

end Dreavm.CProp

/-- C7: the constant propagation pass never folds an instruction whose op is
    DIV, NEG, SQRT, ABS, SIN or COS: whatever the fold callbacks compute,
    the instruction survives in place with its op and result type, and when
    all its arguments are constants it is literally unchanged. -/
theorem c7_no_fold_div_neg_trig
    (foldEval : Dreavm.CProp.Opcode → Dreavm.CProp.VType → Nat → Nat → Nat)
    (instrs : List Dreavm.CProp.Instr) (i : Nat) (hi : i < instrs.length)
    (hop : Dreavm.CProp.noFoldOp (instrs.get ⟨i, hi⟩).op) :
    ∃ out : Dreavm.CProp.Instr,
      (Dreavm.CProp.ConstantPropagationPass_Run foldEval instrs).get? i =
        some (some out) ∧
      out.op = (instrs.get ⟨i, hi⟩).op ∧
      out.rtype = (instrs.get ⟨i, hi⟩).rtype ∧
      (Dreavm.CProp.argsConst (instrs.get ⟨i, hi⟩) →
        out = instrs.get ⟨i, hi⟩) :=
  Dreavm.CProp.runBlock_noFold foldEval instrs (fun _ => none) 0 i hi hop

/-- Witness for C7: in a two-instruction block whose second instruction is a
    DIV of two I32 constants, the DIV survives the pass unchanged. -/
theorem c7_no_fold_div_neg_trig_witness :
    ∃ out : Dreavm.CProp.Instr,
      (Dreavm.CProp.ConstantPropagationPass_Run (fun _ _ a b => a + b)
          [⟨.add, .i32, some (.cnst .i32 1), some (.cnst .i32 2), none⟩,
           ⟨.div, .i32, some (.cnst .i32 6), some (.cnst .i32 3),
            none⟩]).get? 1 = some (some out) ∧
      out.op = Dreavm.CProp.Opcode.div ∧
      out.rtype = Dreavm.CProp.VType.i32 ∧
      (Dreavm.CProp.argsConst
          ⟨.div, .i32, some (.cnst .i32 6), some (.cnst .i32 3), none⟩ →
        out = ⟨.div, .i32, some (.cnst .i32 6), some (.cnst .i32 3), none⟩) :=
  c7_no_fold_div_neg_trig (fun _ _ a b => a + b)
    [⟨.add, .i32, some (.cnst .i32 1), some (.cnst .i32 2), none⟩,
     ⟨.div, .i32, some (.cnst .i32 6), some (.cnst .i32 3), none⟩]
    1 (by norm_num) (Or.inl rfl)

namespace Dreavm.Sh4

/-! ## SH-4 frontend idle-loop detection (src/jit/frontend/sh4/sh4_frontend.c)

The opdef table (`sh4_get_opdef`, sh4_disasm/sh4_instr.inc) and
`sh4_branch_info` are not under src/.  Modelled from the spec: a program is
a function from instruction address to the decoded properties the frontend
consults — the flag bits, the cycle count, and (for PC-writing ops) the
branch target `sh4_branch_info` computes at that address. -/

/-- The `SH4_FLAG_*` bits the frontend reads. -/
structure OpFlags where
  load : Bool
  store : Bool
  cmp : Bool
  cond : Bool
  delayed : Bool
  store_pc : Bool
  store_sr : Bool
  store_fpscr : Bool
deriving DecidableEq, Repr

/-- A decoded instruction: flags, cycles, and branch target. -/
structure ShInstr where
  flags : OpFlags
  cycles : Nat
  branch_addr : Nat
deriving DecidableEq, Repr

/-- `sh4_frontend_is_terminator`. -/
def sh4_frontend_is_terminator (f : OpFlags) : Bool :=
  f.store_pc || f.store_fpscr || f.store_sr

/-- Membership in `IDLE_MASK = SH4_FLAG_LOAD | SH4_FLAG_COND | SH4_FLAG_CMP`. -/
def idleFlag (f : OpFlags) : Bool :=
  f.load || f.cond || f.cmp

/-- `uint32_t` subtraction `a - b`. -/
def sub32 (a b : Nat) : Nat :=
  (a % 0x100000000 + (0x100000000 - b % 0x100000000)) % 0x100000000

/-- The loop of `sh4_frontend_is_idle_loop`, with the running conjunction
    `idle`, the three relevant bits of `all_flags`, and fuel for the
    unbounded C `while (1)` (`none` = fuel ran out before a terminator). -/
def isIdleLoopAux (prog : Nat → ShInstr) (begin_addr : Nat) :
    Nat → Nat → Bool → Bool → Bool → Bool → Option Bool
  | 0, _, _, _, _, _ => none
  | fuel + 1, offset, idle, sawLoad, sawCmp, sawCond =>
    let instr := prog (begin_addr + offset)
    let idle1 := idle && idleFlag instr.flags
    let sl1 := sawLoad || instr.flags.load
    let sc1 := sawCmp || instr.flags.cmp
    let sd1 := sawCond || instr.flags.cond
    if instr.flags.delayed then
      let d := prog (begin_addr + offset + 2)
      let idle2 := idle1 && idleFlag d.flags
      let sl2 := sl1 || d.flags.load
      let sc2 := sc1 || d.flags.cmp
      let sd2 := sd1 || d.flags.cond
      if sh4_frontend_is_terminator instr.flags then
        some ((idle2 && (sl2 && sc2 && sd2)) &&
          (if instr.flags.store_pc then
            decide (sub32 begin_addr instr.branch_addr ≤ 32) else true))
      else
        isIdleLoopAux prog begin_addr fuel (offset + 4) idle2 sl2 sc2 sd2
    else
      if sh4_frontend_is_terminator instr.flags then
        some ((idle1 && (sl1 && sc1 && sd1)) &&
          (if instr.flags.store_pc then
            decide (sub32 begin_addr instr.branch_addr ≤ 32) else true))
      else
        isIdleLoopAux prog begin_addr fuel (offset + 2) idle1 sl1 sc1 sd1

/-- `sh4_frontend_is_idle_loop`. -/
def sh4_frontend_is_idle_loop (prog : Nat → ShInstr) (begin_addr : Nat)
    (fuel : Nat) : Option Bool :=
  isIdleLoopAux prog begin_addr fuel 0 true false false false

/-- The block the scan visits: all instructions in order (delay slots
    included) and the terminating instruction. -/
def scanBlock (prog : Nat → ShInstr) (begin_addr : Nat) :
    Nat → Nat → Option (List ShInstr × ShInstr)
  | 0, _ => none
  | fuel + 1, offset =>
    let instr := prog (begin_addr + offset)
    if instr.flags.delayed then
      let d := prog (begin_addr + offset + 2)
      if sh4_frontend_is_terminator instr.flags then
        some ([instr, d], instr)
      else
        match scanBlock prog begin_addr fuel (offset + 4) with
        | none => none
        | some (rest, t) => some (instr :: d :: rest, t)
    else
      if sh4_frontend_is_terminator instr.flags then
        some ([instr], instr)
      else
        match scanBlock prog begin_addr fuel (offset + 2) with
        | none => none
        | some (rest, t) => some (instr :: rest, t)

/-- What the scan actually decides (the amended characterization): every
    visited instruction carries an IDLE_MASK flag, the block contains all
    three, and if the terminator writes the PC its target is at most 32
    bytes at or before the entry PC in 32-bit arithmetic. -/
def idleLoopAmended (instrs : List ShInstr) (term : ShInstr)
    (begin_addr : Nat) : Bool :=
  (instrs.all fun i => idleFlag i.flags) &&
  ((instrs.any fun i => i.flags.load) &&
   (instrs.any fun i => i.flags.cmp) &&
   (instrs.any fun i => i.flags.cond)) &&
  (if term.flags.store_pc then
    decide (sub32 begin_addr term.branch_addr ≤ 32) else true)

/-- The claim's reading, following its words: additionally the terminator
    must be a conditional branch and no instruction may carry a store flag. -/
def idleLoopClaimed (instrs : List ShInstr) (term : ShInstr)
    (begin_addr : Nat) : Bool :=
  (instrs.all fun i => idleFlag i.flags) &&
  ((instrs.any fun i => i.flags.load) &&
   (instrs.any fun i => i.flags.cmp) &&
   (instrs.any fun i => i.flags.cond)) &&
  (term.flags.store_pc && term.flags.cond &&
    decide (sub32 begin_addr term.branch_addr ≤ 32)) &&
  (instrs.all fun i => !i.flags.store)

/-- The per-instruction cycle costs `sh4_frontend_translate_code` feeds to
    `ir_source_info` (`def->cycles * cycle_scale`), delay slots included. -/
def translateCyclesAux (prog : Nat → ShInstr) (begin_addr scale size : Nat) :
    Nat → Nat → List Nat
  | 0, _ => []
  | fuel + 1, offset =>
    if offset < size then
      let instr := prog (begin_addr + offset)
      if instr.flags.delayed then
        let d := prog (begin_addr + offset + 2)
        instr.cycles * scale :: d.cycles * scale ::
          translateCyclesAux prog begin_addr scale size fuel (offset + 4)
      else
        instr.cycles * scale ::
          translateCyclesAux prog begin_addr scale size fuel (offset + 2)
    else []

/-- The cycle costs `sh4_frontend_translate_code` emits: the scale is 10
    when `sh4_frontend_is_idle_loop` flags the block, else 1. -/
def sh4_frontend_translate_code_cycles (prog : Nat → ShInstr)
    (begin_addr size fuel : Nat) : Option (List Nat) :=
  match sh4_frontend_is_idle_loop prog begin_addr fuel with
  | none => none
  | some idle =>
      some (translateCyclesAux prog begin_addr (if idle then 10 else 1) size
        fuel 0)

end Dreavm.Sh4

namespace Dreavm.Sh4

theorem isIdleLoopAux_characterization (prog : Nat → ShInstr)
    (begin_addr : Nat) :
    ∀ (fuel offset : Nat) (idle sl sc sd : Bool),
      isIdleLoopAux prog begin_addr fuel offset idle sl sc sd =
        (scanBlock prog begin_addr fuel offset).map (fun p =>
          (idle && p.1.all fun i => idleFlag i.flags) &&
          ((sl || p.1.any fun i => i.flags.load) &&
           (sc || p.1.any fun i => i.flags.cmp) &&
           (sd || p.1.any fun i => i.flags.cond)) &&
          (if p.2.flags.store_pc then
            decide (sub32 begin_addr p.2.branch_addr ≤ 32) else true)) := by
  intro fuel
  induction fuel with
  | zero => intro offset idle sl sc sd; rfl
  | succ n ih =>
    intro offset idle sl sc sd
    simp only [isIdleLoopAux, scanBlock]
    by_cases hd : (prog (begin_addr + offset)).flags.delayed <;>
      by_cases ht :
        sh4_frontend_is_terminator (prog (begin_addr + offset)).flags
    · simp [hd, ht, Bool.and_assoc, Bool.and_comm, Bool.and_left_comm,
        Bool.or_assoc, Bool.or_comm, Bool.or_left_comm]
    · rw [if_pos hd, if_pos hd, if_neg ht, if_neg ht, ih]
      cases hscan : scanBlock prog begin_addr n (offset + 4) with
      | none => rfl
      | some p =>
        simp [Bool.and_assoc, Bool.and_comm, Bool.and_left_comm,
          Bool.or_assoc, Bool.or_comm, Bool.or_left_comm]
    · simp [hd, ht, Bool.and_assoc, Bool.and_comm, Bool.and_left_comm,
        Bool.or_assoc, Bool.or_comm, Bool.or_left_comm]
    · rw [if_neg hd, if_neg hd, if_neg ht, if_neg ht, ih]
      cases hscan : scanBlock prog begin_addr n (offset + 2) with
      | none => rfl
      | some p =>
        simp [Bool.and_assoc, Bool.and_comm, Bool.and_left_comm,
          Bool.or_assoc, Bool.or_comm, Bool.or_left_comm]

theorem translateCyclesAux_scale (prog : Nat → ShInstr)
    (begin_addr scale size : Nat) :
    ∀ (fuel offset : Nat),
      translateCyclesAux prog begin_addr scale size fuel offset =
        (translateCyclesAux prog begin_addr 1 size fuel offset).map
          (fun c => c * scale) := by
  intro fuel
  induction fuel with
  | zero => intro offset; rfl
  | succ n ih =>
    intro offset
    simp only [translateCyclesAux]
    by_cases hs : offset < size
    · by_cases hd : (prog (begin_addr + offset)).flags.delayed <;>
        simp [hs, hd, ih, Nat.mul_comm]
    · simp [hs]

end Dreavm.Sh4

namespace Dreavm.Sh4

/-- The non-terminating, non-delayed instruction of the C3 counterexample:
    a load+compare that also stores (e.g. a test-and-set shape). -/
def cexIdleStore : ShInstr :=
  { flags := { load := true, store := true, cmp := true, cond := false,
               delayed := false, store_pc := false, store_sr := false,
               store_fpscr := false },
    cycles := 1, branch_addr := 0 }

/-- The terminator of the C3 counterexample: a conditional branch 16 bytes
    back from the entry PC. -/
def cexCondBranch : ShInstr :=
  { flags := { load := false, store := false, cmp := false, cond := true,
               delayed := false, store_pc := true, store_sr := false,
               store_fpscr := false },
    cycles := 1, branch_addr := 0xF0 }

/-- The two-instruction guest program of the C3 counterexample, entry PC
    0x100. -/
def cexProg : Nat → ShInstr := fun a =>
  if a = 0x100 then cexIdleStore
  else if a = 0x102 then cexCondBranch
  else cexIdleStore

end Dreavm.Sh4

/-- C3 counterexample: the claim's "iff" fails on the code.  On the concrete
    block at 0x100 — a load+compare instruction that also stores, then a
    conditional branch 16 bytes back — the frontend flags `idle_loop = 1`,
    yet the claim's conditions (which require that no stores occur) evaluate
    to false on that same block. -/
theorem c3_idle_loop_cex :
    Dreavm.Sh4.sh4_frontend_is_idle_loop Dreavm.Sh4.cexProg 0x100 4 =
      some true ∧
    Dreavm.Sh4.scanBlock Dreavm.Sh4.cexProg 0x100 4 0 =
      some ([Dreavm.Sh4.cexIdleStore, Dreavm.Sh4.cexCondBranch],
        Dreavm.Sh4.cexCondBranch) ∧
    Dreavm.Sh4.idleLoopClaimed
      [Dreavm.Sh4.cexIdleStore, Dreavm.Sh4.cexCondBranch]
      Dreavm.Sh4.cexCondBranch 0x100 = false := by
  refine ⟨?_, ?_, ?_⟩ <;> decide

/-- C3 (amended): the frontend flags a block `idle_loop = 1` iff every
    instruction of the block (delay slots included) carries at least one of
    the flags LOAD, CMP, COND, the block as a whole contains all three, and
    — when the terminator writes the PC — the branch target lies at most 32
    bytes at or before the entry PC in 32-bit arithmetic (the terminator
    need not be a conditional branch, and store flags are not examined);
    when flagged, every instruction's emitted cycle cost is scaled by 10. -/
theorem c3_idle_loop_amended (prog : Nat → Dreavm.Sh4.ShInstr)
    (begin_addr fuel size : Nat) :
    (Dreavm.Sh4.sh4_frontend_is_idle_loop prog begin_addr fuel =
      (Dreavm.Sh4.scanBlock prog begin_addr fuel 0).map (fun p =>
        Dreavm.Sh4.idleLoopAmended p.1 p.2 begin_addr)) ∧
    (∀ idle : Bool,
      Dreavm.Sh4.sh4_frontend_is_idle_loop prog begin_addr fuel = some idle →
      Dreavm.Sh4.sh4_frontend_translate_code_cycles prog begin_addr size
          fuel =
        some ((Dreavm.Sh4.translateCyclesAux prog begin_addr 1 size fuel
            0).map (fun c => c * (if idle then 10 else 1)))) := by
  constructor
  · rw [Dreavm.Sh4.sh4_frontend_is_idle_loop,
      Dreavm.Sh4.isIdleLoopAux_characterization]
    cases Dreavm.Sh4.scanBlock prog begin_addr fuel 0 with
    | none => rfl
    | some p => simp [Dreavm.Sh4.idleLoopAmended]
  · intro idle hidle
    simp only [Dreavm.Sh4.sh4_frontend_translate_code_cycles, hidle]
    rw [Dreavm.Sh4.translateCyclesAux_scale prog begin_addr
      (if idle = true then 10 else 1) size fuel 0]

/-- Witness for C3 (amended) on the concrete counterexample program: the
    emitted cycle costs of the two-instruction idle block are scaled by
    10. -/
theorem c3_idle_loop_amended_witness :
    Dreavm.Sh4.sh4_frontend_translate_code_cycles Dreavm.Sh4.cexProg 0x100 4
        4 =
      some ((Dreavm.Sh4.translateCyclesAux Dreavm.Sh4.cexProg 0x100 1 4 4
          0).map (fun c => c * 10)) := by
  have h := (c3_idle_loop_amended Dreavm.Sh4.cexProg 0x100 4 4).2 true
    (by decide)
  simpa using h

namespace Dreavm.RA

/-! ## Register allocation (src/jit/passes/register_allocation_pass.c)

The embedding covers the per-result allocation step the claims are about:
`ra_alloc` and its three strategies `ra_reuse_arg_reg`, `ra_alloc_free_reg`
and `ra_alloc_blocked_reg`, over a single block's instruction list.
`ra_expire_tmps` / `ra_rewrite_arg` / the block-recursion are outside these
claims.  Out-of-range index reads — impossible under the pass's maintained
invariants, where the C asserts or has undefined behavior — surface as
`stuck`, or read an explicit `default` where noted.  The spill statistics
(`STAT_gprs_spilled`/`STAT_fprs_spilled`) are diagnostic only and are not
modelled. -/

/-- `struct jit_register`: the backing machine register, identified by its
    position in `ra->regs`, with its `value_types` bitmask. -/
structure JitRegister where
  value_types : Nat
deriving DecidableEq, Repr

instance : Inhabited JitRegister := ⟨⟨0⟩⟩

/-- An `ir_value` as the allocator sees it: its identity, its `tag` (the
    temporary index `ra_get_tmp` reads), its type (the `ir_type` enum
    value), its assigned register, and the iid of its defining
    instruction. -/
structure VInfo where
  vid : Nat
  tag : Nat
  ty : Nat
  reg : Option Nat
  defIid : Nat
deriving DecidableEq, Repr

/-- `ra_reg_can_store`: `(reg->value_types & (1 << v->type)) == mask`. -/
def ra_reg_can_store (reg : JitRegister) (v : VInfo) : Bool :=
  (reg.value_types &&& (1 <<< v.ty)) == (1 <<< v.ty)

/-- `struct ra_use` (`NO_USE` becomes `none`). -/
structure RaUse where
  ordinal : Int
  next_idx : Option Nat
deriving DecidableEq, Repr

instance : Inhabited RaUse := ⟨⟨0, none⟩⟩

/-- `struct ra_tmp`. -/
structure RaTmp where
  next_use_idx : Option Nat
  last_use_idx : Option Nat
  value : Option VInfo
  slot : Option Nat
deriving DecidableEq, Repr

instance : Inhabited RaTmp := ⟨⟨none, none, none, none⟩⟩

/-- `struct ra_bin` (`NO_TMP` becomes `none`). -/
structure RaBin where
  reg : JitRegister
  tmp_idx : Option Nat
deriving DecidableEq, Repr

instance : Inhabited RaBin := ⟨⟨default, none⟩⟩

/-- The allocator state the claims touch: the current `ra_state`'s bins and
    temporaries, plus the constant `uses` array. -/
structure Ra where
  uses : List RaUse
  bins : List RaBin
  tmps : List RaTmp
deriving DecidableEq, Repr

/-- The instruction forms the allocation step distinguishes: an original
    instruction, or a spill store inserted by `ir_store_local` (carrying its
    fresh slot and the stored value's id). -/
inductive IrOp
  | plain
  | storeLocal (slot : Nat) (vid : Nat)
deriving DecidableEq, Repr

/-- An instruction: its identity, form, and first argument (`arg[0]` is all
    `ra_reuse_arg_reg` consults; a `vref` records the argument value's
    `tag`). -/
inductive Arg
  | cnst
  | vref (tag : Nat)
deriving DecidableEq, Repr

structure IrInstr where
  iid : Nat
  op : IrOp
  arg0 : Option Arg
deriving DecidableEq, Repr

/-- A single-block `ir`: the instruction list plus the fresh-local and
    fresh-instruction counters backing `ir_alloc_local` and instruction
    insertion. -/
structure Ir where
  instrs : List IrInstr
  next_local : Nat
  next_iid : Nat
deriving DecidableEq, Repr

/-- Update the list element at `i` in place. -/
def listUpd {α : Type} (l : List α) (i : Nat) (f : α → α) : List α :=
  l.mapIdx (fun j a => if j = i then f a else a)

def getTmp (ra : Ra) (i : Nat) : RaTmp := ra.tmps.getD i default

def getUse (ra : Ra) (i : Nat) : RaUse := ra.uses.getD i default

/-- Insert `n` immediately before the instruction with id `iid` (the
    `ir_set_insert_point` at `list_prev_entry` of that instruction followed
    by an append; at the list head this is an insert at the front). -/
def insertBefore : List IrInstr → Nat → IrInstr → List IrInstr
  | [], _, n => [n]
  | i :: rest, iid, n =>
      if i.iid = iid then n :: i :: rest else i :: insertBefore rest iid n

/-- A strategy's outcome: allocation performed, `return 0`, or a state the
    C would assert on / crash at (out-of-range index, missing value). -/
inductive StratResult
  | ok (ra : Ra) (ir : Ir)
  | declined
  | stuck
deriving DecidableEq, Repr

/-- `ra_alloc`'s outcome; `fatal` is the `LOG_FATAL("Failed to allocate
    register")` path. -/
inductive AllocResult
  | ok (ra : Ra) (ir : Ir)
  | fatal
  | stuck
deriving DecidableEq, Repr

/-- `ra_pack_bin`: the evicted temporary's value becomes unavailable, the
    incoming temporary's value gets the bin's register index, and the bin
    records the incoming temporary. -/
def ra_pack_bin (ra : Ra) (binIdx : Nat) (newTmp : Option Nat) : Ra :=
  let tmps := ra.tmps
  let tmps :=
    match (ra.bins.getD binIdx default).tmp_idx with
    | some oldIdx => listUpd tmps oldIdx (fun t => { t with value := none })
    | none => tmps
  let tmps :=
    match newTmp with
    | some nIdx =>
        listUpd tmps nIdx (fun t =>
          { t with value := t.value.map (fun v => { v with reg := some binIdx }) })
    | none => tmps
  { ra with
    tmps := tmps,
    bins := listUpd ra.bins binIdx (fun b => { b with tmp_idx := newTmp }) }

/-- `INT_MIN`, the scan's initial `furthest_use`. -/
def intMin : Int := -(2 ^ 31)

/-- Whether bin `i` is a spill candidate for `tv`: it exists, is packed,
    its register can store `tv`'s type, and its resident has a next use. -/
def isSpillCandidate (ra : Ra) (tv : VInfo) (i : Nat) : Bool :=
  match ra.bins.get? i with
  | none => false
  | some bin =>
    match bin.tmp_idx with
    | none => false
    | some pIdx =>
        ra_reg_can_store bin.reg tv &&
        ((getTmp ra pIdx).next_use_idx).isSome

/-- The next-use ordinal of bin `i`'s resident (`intMin` when `i` is not
    packed or the resident has no next use). -/
def candOrd (ra : Ra) (i : Nat) : Int :=
  match ra.bins.get? i with
  | none => intMin
  | some bin =>
    match bin.tmp_idx with
    | none => intMin
    | some pIdx =>
      match (getTmp ra pIdx).next_use_idx with
      | none => intMin
      | some uIdx => (getUse ra uIdx).ordinal

/-- One iteration of `ra_alloc_blocked_reg`'s candidate scan. -/
def blockedStep (ra : Ra) (tv : VInfo) (acc : Int × Option Nat) (i : Nat) :
    Int × Option Nat :=
  match ra.bins.get? i with
  | none => acc
  | some bin =>
    match bin.tmp_idx with
    | none => acc
    | some pIdx =>
      if ¬ ra_reg_can_store bin.reg tv then acc
      else
        match (getTmp ra pIdx).next_use_idx with
        | none => acc
        | some uIdx =>
          if (getUse ra uIdx).ordinal > acc.1 then
            ((getUse ra uIdx).ordinal, some i)
          else acc

/-- The scan of `ra_alloc_blocked_reg`: the packed, type-compatible bin
    whose resident's next use ordinal is furthest away (first maximum under
    strict `>`, starting from `INT_MIN`).  A packed resident with no next
    use would read `uses[-1]` in C; it is skipped here and excluded by the
    theorems' hypotheses. -/
def blockedScan (ra : Ra) (tv : VInfo) : Option Nat :=
  ((List.range ra.bins.length).foldl (blockedStep ra tv) (intMin, none)).2

/-- `ra_alloc_blocked_reg`: find the spill bin; if its resident was never
    spilled, allocate a fresh local and insert a `store_local` of the
    resident's value immediately before the defining instruction of the
    value being allocated (`spill_after = list_prev_entry(tmp->value->def)`),
    then pack the new temporary into the bin. -/
def ra_alloc_blocked_reg (ra : Ra) (ir : Ir) (tmpIdx : Nat) : StratResult :=
  match (getTmp ra tmpIdx).value with
  | none => .stuck
  | some tv =>
    match blockedScan ra tv with
    | none => .declined
    | some binIdx =>
      match (ra.bins.getD binIdx default).tmp_idx with
      | none => .stuck
      | some spillIdx =>
        let spillTmp := getTmp ra spillIdx
        if spillTmp.slot = none then
          match spillTmp.value with
          | none => .stuck
          | some sv =>
            let slot := ir.next_local
            let store : IrInstr :=
              { iid := ir.next_iid, op := .storeLocal slot sv.vid,
                arg0 := some (.vref sv.tag) }
            let ir' : Ir :=
              { instrs := insertBefore ir.instrs tv.defIid store,
                next_local := ir.next_local + 1,
                next_iid := ir.next_iid + 1 }
            let ra' := { ra with
              tmps := listUpd ra.tmps spillIdx
                (fun t => { t with slot := some slot }) }
            .ok (ra_pack_bin ra' binIdx (some tmpIdx)) ir'
        else
          .ok (ra_pack_bin ra binIdx (some tmpIdx)) ir

/-- The bin scan of `ra_alloc_free_reg`: index of the first unpacked bin
    whose register can store `tv`'s type. -/
def findFreeIdx (tv : VInfo) : List RaBin → Nat → Option Nat
  | [], _ => none
  | b :: rest, i =>
      if b.tmp_idx.isNone && ra_reg_can_store b.reg tv then some i
      else findFreeIdx tv rest (i + 1)

/-- `ra_alloc_free_reg`: occupy the first unpacked bin whose register can
    store the value's type. -/
def ra_alloc_free_reg (ra : Ra) (ir : Ir) (tmpIdx : Nat) : StratResult :=
  match (getTmp ra tmpIdx).value with
  | none => .stuck
  | some tv =>
    match findFreeIdx tv ra.bins 0 with
    | none => .declined
    | some i => .ok (ra_pack_bin ra i (some tmpIdx)) ir

/-- `ra_reuse_arg_reg`: reuse the first operand's register when the operand
    is a non-constant value whose current next use has no successor and the
    register can hold the result's type.  The C's `CHECK(arg->value &&
    arg->value->reg != NO_REGISTER)` paths are `stuck`. -/
def ra_reuse_arg_reg (ra : Ra) (ir : Ir) (tmpIdx : Nat) : StratResult :=
  match (getTmp ra tmpIdx).value with
  | none => .stuck
  | some tv =>
    match ir.instrs.find? (fun i => i.iid == tv.defIid) with
    | none => .stuck
    | some instr =>
      match instr.arg0 with
      | none => .declined
      | some .cnst => .declined
      | some (.vref tag) =>
        let arg := getTmp ra tag
        match arg.next_use_idx with
        | none => .stuck
        | some uIdx =>
          match arg.value with
          | none => .stuck
          | some av =>
            match av.reg with
            | none => .stuck
            | some argReg =>
              if (getUse ra uIdx).next_idx ≠ none then .declined
              else if ¬ ra_reg_can_store (ra.bins.getD argReg default).reg tv
              then .declined
              else .ok (ra_pack_bin ra argReg (some tmpIdx)) ir

/-- The `tmp->value = value` assignment at the top of `ra_alloc`. -/
def ra_alloc_setv (ra : Ra) (v : VInfo) : Ra :=
  { ra with
    tmps := listUpd ra.tmps v.tag (fun t => { t with value := some v }) }

/-- `ra_alloc`: record the result value on its temporary, then try reuse,
    free, and blocked allocation in that order; all three failing is the
    fatal path. -/
def ra_alloc (ra : Ra) (ir : Ir) (value : Option VInfo) : AllocResult :=
  match value with
  | none => .ok ra ir
  | some v =>
    let ra1 := ra_alloc_setv ra v
    match ra_reuse_arg_reg ra1 ir v.tag with
    | .ok ra' ir' => .ok ra' ir'
    | .stuck => .stuck
    | .declined =>
      match ra_alloc_free_reg ra1 ir v.tag with
      | .ok ra' ir' => .ok ra' ir'
      | .stuck => .stuck
      | .declined =>
        match ra_alloc_blocked_reg ra1 ir v.tag with
        | .ok ra' ir' => .ok ra' ir'
        | .stuck => .stuck
        | .declined => .fatal

end Dreavm.RA

namespace Dreavm.RA

theorem blockedStep_eq (ra : Ra) (tv : VInfo) (acc : Int × Option Nat)
    (i : Nat) :
    blockedStep ra tv acc i =
      if isSpillCandidate ra tv i = true ∧ candOrd ra i > acc.1 then
        (candOrd ra i, some i)
      else acc := by
  unfold blockedStep isSpillCandidate candOrd
  cases hb : ra.bins.get? i with
  | none => simp
  | some bin =>
    cases hp : bin.tmp_idx with
    | none => simp [hp]
    | some pIdx =>
      by_cases hcs : ra_reg_can_store bin.reg tv
      · cases hu : (getTmp ra pIdx).next_use_idx with
        | none => simp [hp, hu, hcs]
        | some uIdx =>
          by_cases hord : (getUse ra uIdx).ordinal > acc.1 <;>
            simp [hp, hu, hcs, hord]
      · simp [hp, hcs]

theorem blockedFold_spec (ra : Ra) (tv : VInfo) :
    ∀ (l : List Nat) (fu : Int) (sp : Option Nat),
      (sp = none → fu = intMin) →
      (∀ b, sp = some b →
        isSpillCandidate ra tv b = true ∧ candOrd ra b = fu) →
      ((l.foldl (blockedStep ra tv) (fu, sp)).2 = none →
        (l.foldl (blockedStep ra tv) (fu, sp)).1 = intMin ∧ sp = none ∧
        ∀ i ∈ l, isSpillCandidate ra tv i = true → candOrd ra i ≤ intMin) ∧
      (∀ b, (l.foldl (blockedStep ra tv) (fu, sp)).2 = some b →
        isSpillCandidate ra tv b = true ∧
        candOrd ra b = (l.foldl (blockedStep ra tv) (fu, sp)).1 ∧
        fu ≤ (l.foldl (blockedStep ra tv) (fu, sp)).1 ∧
        ∀ i ∈ l, isSpillCandidate ra tv i = true →
          candOrd ra i ≤ (l.foldl (blockedStep ra tv) (fu, sp)).1) := by
  intro l
  induction l with
  | nil =>
    intro fu sp h1 h2
    refine ⟨fun hn => ⟨h1 hn, hn, by simp⟩, fun b hb => ?_⟩
    obtain ⟨hc, ho⟩ := h2 b hb
    exact ⟨hc, ho, le_refl _, by simp⟩
  | cons x xs ih =>
    intro fu sp h1 h2
    simp only [List.foldl_cons, blockedStep_eq]
    by_cases hx : isSpillCandidate ra tv x = true ∧ candOrd ra x > fu
    · rw [if_pos hx]
      have ih' := ih (candOrd ra x) (some x) (by simp)
        (fun b hb => by
          cases hb
          exact ⟨hx.1, rfl⟩)
      refine ⟨fun hn => absurd ((ih'.1 hn).2.1) (by simp), fun b hb => ?_⟩
      obtain ⟨hc, ho, hle, hall⟩ := ih'.2 b hb
      refine ⟨hc, ho, le_trans (le_of_lt hx.2) hle, ?_⟩
      intro i hi hci
      rcases List.mem_cons.mp hi with rfl | hi
      · exact le_trans (le_of_eq rfl) (le_trans (le_of_eq rfl)
          (by exact le_trans (le_refl _) hle))
      · exact hall i hi hci
    · rw [if_neg hx]
      have ih' := ih fu sp h1 h2
      refine ⟨fun hn => ?_, fun b hb => ?_⟩
      · obtain ⟨hfu, hsp, hall⟩ := ih'.1 hn
        refine ⟨hfu, hsp, ?_⟩
        intro i hi hci
        rcases List.mem_cons.mp hi with rfl | hi
        · have := h1 hsp
          subst this
          by_cases hgt : candOrd ra i > intMin
          · exact absurd ⟨hci, hgt⟩ hx
          · exact le_of_not_lt hgt
        · exact hall i hi hci
      · obtain ⟨hc, ho, hle, hall⟩ := ih'.2 b hb
        refine ⟨hc, ho, hle, ?_⟩
        intro i hi hci
        rcases List.mem_cons.mp hi with rfl | hi
        · by_cases hgt : candOrd ra i > fu
          · exact absurd ⟨hci, hgt⟩ hx
          · exact le_trans (le_of_not_lt hgt) hle
        · exact hall i hi hci

theorem isSpillCandidate_out_of_range (ra : Ra) (tv : VInfo) (i : Nat)
    (h : ra.bins.length ≤ i) : isSpillCandidate ra tv i = false := by
  unfold isSpillCandidate
  rw [List.get?_eq_none.mpr h]

theorem candOrd_gt_intMin (ra : Ra) (tv : VInfo) (i : Nat)
    (hmin : ∀ u ∈ ra.uses, intMin < u.ordinal)
    (hc : isSpillCandidate ra tv i = true) : intMin < candOrd ra i := by
  unfold isSpillCandidate at hc
  unfold candOrd
  cases hb : ra.bins.get? i with
  | none => simp only [hb] at hc; exact absurd hc (by simp)
  | some bin =>
    simp only [hb] at hc ⊢
    cases hp : bin.tmp_idx with
    | none => simp only [hp] at hc; exact absurd hc (by simp)
    | some pIdx =>
      simp only [hp] at hc ⊢
      cases hu : (getTmp ra pIdx).next_use_idx with
      | none => simp only [hu] at hc; simp at hc
      | some uIdx =>
        simp only [hu]
        by_cases hlen : uIdx < ra.uses.length
        · have hmem : getUse ra uIdx ∈ ra.uses := by
            unfold getUse
            rw [List.getD_eq_getElem?_getD, List.getElem?_eq_getElem hlen]
            exact List.getElem_mem _
          exact hmin _ hmem
        · have hdef : getUse ra uIdx = default := by
            unfold getUse
            rw [List.getD_eq_getElem?_getD,
              List.getElem?_eq_none (by omega)]
            rfl
          rw [hdef]
          decide

theorem blockedScan_some_spec (ra : Ra) (tv : VInfo) (b : Nat)
    (h : blockedScan ra tv = some b) :
    isSpillCandidate ra tv b = true ∧
    ∀ i, isSpillCandidate ra tv i = true → candOrd ra i ≤ candOrd ra b := by
  have hs := blockedFold_spec ra tv (List.range ra.bins.length) intMin none
    (fun _ => rfl) (by simp)
  obtain ⟨hc, ho, _, hall⟩ := hs.2 b h
  refine ⟨hc, fun i hi => ?_⟩
  by_cases hlen : i < ra.bins.length
  · have := hall i (List.mem_range.mpr hlen) hi
    rw [ho]
    exact this
  · rw [isSpillCandidate_out_of_range ra tv i (by omega)] at hi
    simp at hi

theorem blockedScan_none_spec (ra : Ra) (tv : VInfo)
    (hmin : ∀ u ∈ ra.uses, intMin < u.ordinal)
    (h : blockedScan ra tv = none) :
    ∀ i, isSpillCandidate ra tv i = false := by
  have hs := blockedFold_spec ra tv (List.range ra.bins.length) intMin none
    (fun _ => rfl) (by simp)
  obtain ⟨_, _, hall⟩ := hs.1 h
  intro i
  by_cases hlen : i < ra.bins.length
  · by_cases hci : isSpillCandidate ra tv i = true
    · have h1 := hall i (List.mem_range.mpr hlen) hci
      have h2 := candOrd_gt_intMin ra tv i hmin hci
      omega
    · simpa using hci
  · exact isSpillCandidate_out_of_range ra tv i (by omega)

end Dreavm.RA

namespace Dreavm.RA

theorem insertBefore_position (n : IrInstr) :
    ∀ (l1 l2 : List IrInstr) (d : IrInstr),
      (∀ x ∈ l1, x.iid ≠ d.iid) →
      insertBefore (l1 ++ d :: l2) d.iid n = l1 ++ n :: d :: l2 := by
  intro l1
  induction l1 with
  | nil => intro l2 d _; simp [insertBefore]
  | cons a as ih =>
    intro l2 d h
    have ha := h a (List.mem_cons_self a as)
    simp only [List.cons_append, insertBefore, if_neg ha]
    exact congrArg (fun t => a :: t)
      (ih l2 d (fun x hx => h x (List.mem_cons_of_mem a hx)))

theorem findFreeIdx_some_spec (tv : VInfo) :
    ∀ (l : List RaBin) (base i : Nat), findFreeIdx tv l base = some i →
      ∃ k, i = base + k ∧
        (∃ b, l.get? k = some b ∧
          (b.tmp_idx.isNone && ra_reg_can_store b.reg tv) = true) ∧
        ∀ j, j < k → ∀ b, l.get? j = some b →
          (b.tmp_idx.isNone && ra_reg_can_store b.reg tv) = false := by
  intro l
  induction l with
  | nil => intro base i h; exact absurd h (by simp [findFreeIdx])
  | cons c rest ih =>
    intro base i h
    unfold findFreeIdx at h
    by_cases hc : (c.tmp_idx.isNone && ra_reg_can_store c.reg tv) = true
    · rw [if_pos hc] at h
      cases h
      exact ⟨0, by omega, ⟨c, rfl, hc⟩, fun j hj => absurd hj (by omega)⟩
    · rw [if_neg hc] at h
      obtain ⟨k, hik, hbk, hprev⟩ := ih (base + 1) i h
      refine ⟨k + 1, by omega, ?_, ?_⟩
      · obtain ⟨b, hb1, hb2⟩ := hbk
        exact ⟨b, by simpa using hb1, hb2⟩
      · intro j hj b hb
        match j with
        | 0 =>
            simp only [List.get?] at hb
            cases hb
            simpa using hc
        | Nat.succ j' =>
            exact hprev j' (by omega) b (by simpa using hb)

theorem findFreeIdx_none_spec (tv : VInfo) :
    ∀ (l : List RaBin) (base : Nat), findFreeIdx tv l base = none →
      ∀ j b, l.get? j = some b →
        (b.tmp_idx.isNone && ra_reg_can_store b.reg tv) = false := by
  intro l
  induction l with
  | nil => intro base _ j b hb; exact absurd hb (by simp)
  | cons c rest ih =>
    intro base h j b hb
    unfold findFreeIdx at h
    by_cases hc : (c.tmp_idx.isNone && ra_reg_can_store c.reg tv) = true
    · rw [if_pos hc] at h; exact absurd h (by simp)
    · rw [if_neg hc] at h
      match j with
      | 0 =>
          simp only [List.get?] at hb
          cases hb
          simpa using hc
      | Nat.succ j' =>
          exact ih (base + 1) h j' b (by simpa using hb)

end Dreavm.RA

namespace Dreavm.RA

theorem reuse_ok_necessary (ra : Ra) (ir : Ir) (t : Nat) (ra' : Ra) (ir' : Ir)
    (h : ra_reuse_arg_reg ra ir t = .ok ra' ir') :
    ∃ tv instr tag uIdx av argReg,
      (getTmp ra t).value = some tv ∧
      ir.instrs.find? (fun i => i.iid == tv.defIid) = some instr ∧
      instr.arg0 = some (.vref tag) ∧
      (getTmp ra tag).next_use_idx = some uIdx ∧
      (getUse ra uIdx).next_idx = none ∧
      (getTmp ra tag).value = some av ∧
      av.reg = some argReg ∧
      ra_reg_can_store (ra.bins.getD argReg default).reg tv = true ∧
      ra' = ra_pack_bin ra argReg (some t) ∧ ir' = ir := by
  unfold ra_reuse_arg_reg at h
  cases htv : (getTmp ra t).value with
  | none => simp only [htv] at h; exact absurd h (by simp)
  | some tv =>
  simp only [htv] at h
  cases hfind : ir.instrs.find? (fun i => i.iid == tv.defIid) with
  | none => simp only [hfind] at h; exact absurd h (by simp)
  | some instr =>
  simp only [hfind] at h
  cases harg : instr.arg0 with
  | none => simp only [harg] at h; exact absurd h (by simp)
  | some a =>
  simp only [harg] at h
  cases a with
  | cnst => exact absurd h (by simp)
  | vref tag =>
  cases hu : (getTmp ra tag).next_use_idx with
  | none => simp only [hu] at h; exact absurd h (by simp)
  | some uIdx =>
  simp only [hu] at h
  cases hav : (getTmp ra tag).value with
  | none => simp only [hav] at h; exact absurd h (by simp)
  | some av =>
  simp only [hav] at h
  cases hreg : av.reg with
  | none => simp only [hreg] at h; exact absurd h (by simp)
  | some argReg =>
  simp only [hreg] at h
  by_cases hnx : (getUse ra uIdx).next_idx ≠ none
  · rw [if_pos hnx] at h; exact absurd h (by simp)
  · rw [if_neg hnx] at h
    by_cases hcs : ¬ ra_reg_can_store (ra.bins.getD argReg default).reg tv = true
    · rw [if_pos hcs] at h; exact absurd h (by simp)
    · rw [if_neg hcs] at h
      obtain ⟨h1, h2⟩ : ra_pack_bin ra argReg (some t) = ra' ∧ ir = ir' := by
        simpa using h
      exact ⟨tv, instr, tag, uIdx, av, argReg, rfl, hfind, harg, hu,
        not_not.mp (fun hx => hnx hx), hav, hreg,
        not_not.mp hcs, h1.symm, h2.symm⟩

end Dreavm.RA

namespace Dreavm.RA

/-- The `spill_tmp->slot = ir_alloc_local(...)` assignment. -/
def spillSlotUpd (ra : Ra) (spillIdx slot : Nat) : Ra :=
  { ra with
    tmps := listUpd ra.tmps spillIdx (fun t => { t with slot := some slot }) }

end Dreavm.RA

/-- C1 (amended): when allocation falls through to
    `ra_alloc_blocked_reg`, the allocator picks a packed, type-compatible
    bin whose resident's next use ordinal is furthest in the future (no such
    bin: the strategy declines); if the resident has not been spilled
    before, it allocates a fresh stack slot and inserts a `store_local` of
    the resident's value immediately BEFORE the defining instruction of the
    value being allocated — not after the resident's defining instruction —
    then packs the new temporary into the bin; a previously spilled resident
    is evicted without a new store. -/
theorem c1_blocked_spill_amended (ra : Dreavm.RA.Ra) (ir : Dreavm.RA.Ir)
    (tmpIdx : Nat) (tv : Dreavm.RA.VInfo)
    (htv : (Dreavm.RA.getTmp ra tmpIdx).value = some tv)
    (hmin : ∀ u ∈ ra.uses, Dreavm.RA.intMin < u.ordinal) :
    (∀ b, Dreavm.RA.blockedScan ra tv = some b →
      Dreavm.RA.isSpillCandidate ra tv b = true ∧
      ∀ i, Dreavm.RA.isSpillCandidate ra tv i = true →
        Dreavm.RA.candOrd ra i ≤ Dreavm.RA.candOrd ra b) ∧
    (Dreavm.RA.blockedScan ra tv = none →
      (∀ i, Dreavm.RA.isSpillCandidate ra tv i = false) ∧
      Dreavm.RA.ra_alloc_blocked_reg ra ir tmpIdx = .declined) ∧
    (∀ b spillIdx sv, Dreavm.RA.blockedScan ra tv = some b →
      (ra.bins.getD b default).tmp_idx = some spillIdx →
      (Dreavm.RA.getTmp ra spillIdx).slot = none →
      (Dreavm.RA.getTmp ra spillIdx).value = some sv →
      Dreavm.RA.ra_alloc_blocked_reg ra ir tmpIdx =
        .ok (Dreavm.RA.ra_pack_bin
              (Dreavm.RA.spillSlotUpd ra spillIdx ir.next_local)
              b (some tmpIdx))
          { instrs := Dreavm.RA.insertBefore ir.instrs tv.defIid
              { iid := ir.next_iid,
                op := .storeLocal ir.next_local sv.vid,
                arg0 := some (.vref sv.tag) },
            next_local := ir.next_local + 1,
            next_iid := ir.next_iid + 1 }) ∧
    (∀ b spillIdx s, Dreavm.RA.blockedScan ra tv = some b →
      (ra.bins.getD b default).tmp_idx = some spillIdx →
      (Dreavm.RA.getTmp ra spillIdx).slot = some s →
      Dreavm.RA.ra_alloc_blocked_reg ra ir tmpIdx =
        .ok (Dreavm.RA.ra_pack_bin ra b (some tmpIdx)) ir) ∧
    (∀ (l1 l2 : List Dreavm.RA.IrInstr) (d n : Dreavm.RA.IrInstr),
      (∀ x ∈ l1, x.iid ≠ d.iid) →
      Dreavm.RA.insertBefore (l1 ++ d :: l2) d.iid n = l1 ++ n :: d :: l2) := by
  refine ⟨?_, ?_, ?_, ?_, ?_⟩
  · intro b hb
    exact Dreavm.RA.blockedScan_some_spec ra tv b hb
  · intro hnone
    refine ⟨Dreavm.RA.blockedScan_none_spec ra tv hmin hnone, ?_⟩
    unfold Dreavm.RA.ra_alloc_blocked_reg
    simp only [htv, hnone]
  · intro b spillIdx sv hb hpacked hslot hsv
    unfold Dreavm.RA.ra_alloc_blocked_reg Dreavm.RA.spillSlotUpd
    simp only [htv, hb, hpacked, hsv, hslot]
    simp
  · intro b spillIdx s hb hpacked hslot
    unfold Dreavm.RA.ra_alloc_blocked_reg
    simp only [htv, hb, hpacked, hslot]
    rw [if_neg (by simp [hslot])]
  · intro l1 l2 d n h
    exact Dreavm.RA.insertBefore_position n l1 l2 d h

namespace Dreavm.RA

/-- Concrete data for the C1 counterexample: one general register holding a
    resident temporary (value defined by instruction 0, next use at ordinal
    100, never spilled), and a new temporary for the result of instruction
    2; instruction 1 sits between the two definitions. -/
def c1ResidentVal : VInfo :=
  { vid := 0, tag := 0, ty := 0, reg := some 0, defIid := 0 }

def c1NewVal : VInfo :=
  { vid := 2, tag := 1, ty := 0, reg := none, defIid := 2 }

def c1Ra : Ra :=
  { uses := [⟨100, none⟩, ⟨110, none⟩],
    bins := [⟨⟨0xff⟩, some 0⟩],
    tmps := [⟨some 0, some 0, some c1ResidentVal, none⟩,
             ⟨some 1, some 1, some c1NewVal, none⟩] }

def c1I0 : IrInstr := ⟨0, .plain, none⟩

def c1I1 : IrInstr := ⟨1, .plain, none⟩

def c1I2 : IrInstr := ⟨2, .plain, some (.vref 0)⟩

def c1Ir : Ir := { instrs := [c1I0, c1I1, c1I2], next_local := 0, next_iid := 3 }

/-- The spill store the blocked allocation inserts on this input. -/
def c1Store : IrInstr := ⟨3, .storeLocal 0 0, some (.vref 0)⟩

end Dreavm.RA

/-- C1 counterexample: the claim fails on the code at a concrete input.
    Spilling the resident of the single register while allocating the result
    of instruction 2 inserts the `store_local` immediately BEFORE instruction
    2 (the instruction being allocated for), i.e. the block becomes
    `[i0, i1, store, i2]` — not `[i0, store, i1, i2]` as "immediately after
    the resident's defining instruction" (instruction 0) requires. -/
theorem c1_spill_position_cex :
    Dreavm.RA.ra_alloc_blocked_reg Dreavm.RA.c1Ra Dreavm.RA.c1Ir 1 =
      .ok (Dreavm.RA.ra_pack_bin
            (Dreavm.RA.spillSlotUpd Dreavm.RA.c1Ra 0 0) 0 (some 1))
        { instrs := [Dreavm.RA.c1I0, Dreavm.RA.c1I1, Dreavm.RA.c1Store,
            Dreavm.RA.c1I2],
          next_local := 1, next_iid := 4 } ∧
    [Dreavm.RA.c1I0, Dreavm.RA.c1I1, Dreavm.RA.c1Store, Dreavm.RA.c1I2] ≠
      [Dreavm.RA.c1I0, Dreavm.RA.c1Store, Dreavm.RA.c1I1, Dreavm.RA.c1I2] := by
  exact ⟨by decide, by decide⟩

/-- Witness for C1 (amended) at the concrete spill scenario: the furthest
    candidate is bin 0 and the store lands immediately before instruction
    2. -/
theorem c1_blocked_spill_amended_witness :
    Dreavm.RA.ra_alloc_blocked_reg Dreavm.RA.c1Ra Dreavm.RA.c1Ir 1 =
      .ok (Dreavm.RA.ra_pack_bin
            (Dreavm.RA.spillSlotUpd Dreavm.RA.c1Ra 0
              Dreavm.RA.c1Ir.next_local) 0 (some 1))
        { instrs := Dreavm.RA.insertBefore Dreavm.RA.c1Ir.instrs
            Dreavm.RA.c1NewVal.defIid
            { iid := Dreavm.RA.c1Ir.next_iid,
              op := .storeLocal Dreavm.RA.c1Ir.next_local
                Dreavm.RA.c1ResidentVal.vid,
              arg0 := some (.vref Dreavm.RA.c1ResidentVal.tag) },
          next_local := Dreavm.RA.c1Ir.next_local + 1,
          next_iid := Dreavm.RA.c1Ir.next_iid + 1 } :=
  (c1_blocked_spill_amended Dreavm.RA.c1Ra Dreavm.RA.c1Ir 1
      Dreavm.RA.c1NewVal (by decide) (by decide)).2.2.1
    0 0 Dreavm.RA.c1ResidentVal (by decide) (by decide) (by decide)
    (by decide)

/-- C2: for every instruction result the allocator tries, in this exact
    order: (a) reuse of the first operand's register — possible only when
    the defining instruction has a non-constant first operand whose current
    next use has no successor (no uses after this instruction) and whose
    register can hold the result's type; (b) otherwise the FIRST free bin
    whose register accepts the result's type; (c) otherwise the spill
    strategy; and when all three decline, `ra_alloc` is the fatal path. -/
theorem c2_alloc_strategy_order (ra : Dreavm.RA.Ra) (ir : Dreavm.RA.Ir)
    (v : Dreavm.RA.VInfo) (t : Nat) (ra' : Dreavm.RA.Ra)
    (ir' : Dreavm.RA.Ir) :
    (Dreavm.RA.ra_reuse_arg_reg ra ir t = .ok ra' ir' →
      ∃ tv instr tag uIdx av argReg,
        (Dreavm.RA.getTmp ra t).value = some tv ∧
        ir.instrs.find? (fun i => i.iid == tv.defIid) = some instr ∧
        instr.arg0 = some (.vref tag) ∧
        (Dreavm.RA.getTmp ra tag).next_use_idx = some uIdx ∧
        (Dreavm.RA.getUse ra uIdx).next_idx = none ∧
        (Dreavm.RA.getTmp ra tag).value = some av ∧
        av.reg = some argReg ∧
        Dreavm.RA.ra_reg_can_store (ra.bins.getD argReg default).reg tv =
          true ∧
        ra' = Dreavm.RA.ra_pack_bin ra argReg (some t) ∧ ir' = ir) ∧
    (Dreavm.RA.ra_alloc_free_reg ra ir t = .ok ra' ir' →
      ∃ tv k b, (Dreavm.RA.getTmp ra t).value = some tv ∧
        ra.bins.get? k = some b ∧
        (b.tmp_idx.isNone && Dreavm.RA.ra_reg_can_store b.reg tv) = true ∧
        (∀ j, j < k → ∀ b', ra.bins.get? j = some b' →
          (b'.tmp_idx.isNone && Dreavm.RA.ra_reg_can_store b'.reg tv) =
            false) ∧
        ra' = Dreavm.RA.ra_pack_bin ra k (some t) ∧ ir' = ir) ∧
    (∀ tv, (Dreavm.RA.getTmp ra t).value = some tv →
      Dreavm.RA.ra_alloc_free_reg ra ir t = .declined →
      ∀ j b, ra.bins.get? j = some b →
        (b.tmp_idx.isNone && Dreavm.RA.ra_reg_can_store b.reg tv) = false) ∧
    (Dreavm.RA.ra_alloc ra ir none = .ok ra ir) ∧
    (Dreavm.RA.ra_reuse_arg_reg (Dreavm.RA.ra_alloc_setv ra v) ir v.tag =
        .ok ra' ir' →
      Dreavm.RA.ra_alloc ra ir (some v) = .ok ra' ir') ∧
    (Dreavm.RA.ra_reuse_arg_reg (Dreavm.RA.ra_alloc_setv ra v) ir v.tag =
        .declined →
      Dreavm.RA.ra_alloc_free_reg (Dreavm.RA.ra_alloc_setv ra v) ir v.tag =
        .ok ra' ir' →
      Dreavm.RA.ra_alloc ra ir (some v) = .ok ra' ir') ∧
    (Dreavm.RA.ra_reuse_arg_reg (Dreavm.RA.ra_alloc_setv ra v) ir v.tag =
        .declined →
      Dreavm.RA.ra_alloc_free_reg (Dreavm.RA.ra_alloc_setv ra v) ir v.tag =
        .declined →
      Dreavm.RA.ra_alloc_blocked_reg (Dreavm.RA.ra_alloc_setv ra v) ir
          v.tag = .ok ra' ir' →
      Dreavm.RA.ra_alloc ra ir (some v) = .ok ra' ir') ∧
    (Dreavm.RA.ra_reuse_arg_reg (Dreavm.RA.ra_alloc_setv ra v) ir v.tag =
        .declined →
      Dreavm.RA.ra_alloc_free_reg (Dreavm.RA.ra_alloc_setv ra v) ir v.tag =
        .declined →
      Dreavm.RA.ra_alloc_blocked_reg (Dreavm.RA.ra_alloc_setv ra v) ir
          v.tag = .declined →
      Dreavm.RA.ra_alloc ra ir (some v) = .fatal) := by
  refine ⟨?_, ?_, ?_, rfl, ?_, ?_, ?_, ?_⟩
  · exact Dreavm.RA.reuse_ok_necessary ra ir t ra' ir'
  · intro h
    unfold Dreavm.RA.ra_alloc_free_reg at h
    cases htv : (Dreavm.RA.getTmp ra t).value with
    | none => simp only [htv] at h; exact absurd h (by simp)
    | some tv =>
      simp only [htv] at h
      cases hfind : Dreavm.RA.findFreeIdx tv ra.bins 0 with
      | none => simp only [hfind] at h; exact absurd h (by simp)
      | some i =>
        simp only [hfind] at h
        obtain ⟨hr, hi⟩ : Dreavm.RA.ra_pack_bin ra i (some t) = ra' ∧
            ir = ir' := by simpa using h
        obtain ⟨k, hik, ⟨b, hb1, hb2⟩, hprev⟩ :=
          Dreavm.RA.findFreeIdx_some_spec tv ra.bins 0 i hfind
        have hk : i = k := by omega
        subst hk
        exact ⟨tv, i, b, rfl, hb1, hb2, hprev, hr.symm, hi.symm⟩
  · intro tv htv h
    unfold Dreavm.RA.ra_alloc_free_reg at h
    simp only [htv] at h
    cases hfind : Dreavm.RA.findFreeIdx tv ra.bins 0 with
    | none => exact Dreavm.RA.findFreeIdx_none_spec tv ra.bins 0 hfind
    | some i => simp only [hfind] at h; exact absurd h (by simp)
  · intro h
    unfold Dreavm.RA.ra_alloc
    simp only [h]
  · intro h1 h2
    unfold Dreavm.RA.ra_alloc
    simp only [h1, h2]
  · intro h1 h2 h3
    unfold Dreavm.RA.ra_alloc
    simp only [h1, h2, h3]
  · intro h1 h2 h3
    unfold Dreavm.RA.ra_alloc
    simp only [h1, h2, h3]

namespace Dreavm.RA

/-- Concrete data for the C2 witness: a machine with no registers at all,
    so every strategy declines. -/
def c2Val : VInfo := { vid := 0, tag := 0, ty := 0, reg := none, defIid := 0 }

def c2Ra : Ra :=
  { uses := [⟨0, none⟩], bins := [], tmps := [⟨some 0, some 0, none, none⟩] }

def c2Ir : Ir :=
  { instrs := [⟨0, .plain, none⟩], next_local := 0, next_iid := 1 }

end Dreavm.RA

/-- Witness for C2: with no bins at all, reuse, free and blocked all
    decline and `ra_alloc` hits the fatal path. -/
theorem c2_alloc_strategy_order_witness :
    Dreavm.RA.ra_alloc Dreavm.RA.c2Ra Dreavm.RA.c2Ir
      (some Dreavm.RA.c2Val) = .fatal :=
  (c2_alloc_strategy_order Dreavm.RA.c2Ra Dreavm.RA.c2Ir Dreavm.RA.c2Val 0
      Dreavm.RA.c2Ra Dreavm.RA.c2Ir).2.2.2.2.2.2.2
    (by decide) (by decide) (by decide)
